import Mathlib

/-!
# Banking management system: PIN check and login lockout

A shallow embedding of `src/security.cpp` (`hash_pin`, `is_strong_pin`,
`validate_account`) together with the declarations of `src/banking.h` it
uses, followed by theorems about the embedded functions.

Conventions of the embedding.

* A C++ `std::string` is a Lean `String`; each Lean character stands for one
  C++ `char`, so `String.length` is `std::string::length`.
* A C++ `int` is a Lean `Int` kept in the 32-bit range by `wrap_int` after
  each arithmetic operation of the source.
* The global `std::map<std::string, Account> accounts` is a list of
  key/value pairs read through its first entry with a given key; an
  `Account&` obtained from `accounts.find` is represented by that key.
* The collaborators `log_audit_event`, `cout <<` and
  `save_all_accounts_to_file` append to a trace, so that the order and the
  content of the effects of a call can be stated.
* `std::hash<std::string>` and the clock are parameters: `hasher` maps a
  string to its hash value, `elapsed` maps a stored date to the number of
  calendar days between it and the current date.
-/

namespace Bank

/-! ## Constants of `banking.h` -/

/-- The constant `MAX_FAILED_ATTEMPTS` of `banking.h`. -/
def MAX_FAILED_ATTEMPTS : Int := 3

/-- The constant `INACTIVITY_LOCK_DAYS` of `banking.h`. -/
def INACTIVITY_LOCK_DAYS : Int := 180

/-- Largest value of a C++ `int` (32 bits). -/
def INT_MAX : Int := 2147483647

/-- Smallest value of a C++ `int` (32 bits). -/
def INT_MIN : Int := -2147483648

/-- Result of an `int` operation whose mathematical value is `x`: the value
itself when it is representable, and the two-complement wrap-around that the
usual targets produce when it is not (the C++ standard leaves that case
undefined). -/
def wrap_int (x : Int) : Int := (x + 2147483648) % 4294967296 - 2147483648

/-- Carrier of the `double` fields of `Account`. The functions embedded here
never read or write these fields; they are only carried along. -/
abbrev Money := Rat

/-! ## Data model -/

/-- The `Account` struct of `banking.h`, field by field. -/
structure Account where
  account_number : String
  name : String
  pin_hash : String
  gender : String
  phone_number : String
  age : Int
  account_type : String
  email : String
  address : String
  cif_number : String
  ifsc_code : String
  micr_code : String
  branch_name : String
  branch_address : String
  balance : Money
  status : String
  opening_date : String
  failed_attempts : Int
  last_transaction_date : String
  daily_withdrawal_total : Money
  deriving DecidableEq

/-- The global `accounts` map: key/value pairs, looked up by first match. -/
abbrev Ledger := List (String × Account)

/-- The lookup `accounts.find(key)`: the mapped account, or `none` for
`accounts.end()`. -/
def Ledger.find : Ledger → String → Option Account
  | [], _ => none
  | (k, a) :: rest, key => if k = key then some a else Ledger.find rest key

/-- Write through an `Account&` that refers to the entry of `key`: the entry
that `find` returns is replaced by `f` of it, everything else is kept. -/
def Ledger.update_at : Ledger → String → (Account → Account) → Ledger
  | [], _, _ => []
  | (k, a) :: rest, key, f =>
    if k = key then (k, f a) :: rest else (k, a) :: Ledger.update_at rest key f

/-- Observable effects of the collaborators, in the order they happen. -/
inductive Event where
  /-- A call `log_audit_event(msg)`. -/
  | audit (msg : String)
  /-- Text written to `cout`. -/
  | report (msg : String)
  /-- A call `save_all_accounts_to_file()`, with the ledger it writes out. -/
  | persist (snapshot : Ledger)
  deriving DecidableEq

/-- Program state: the global ledger and the effects produced so far. -/
structure World where
  accounts : Ledger
  trace : List Event
  deriving DecidableEq

/-- Modelled from the spec: `log_audit_event`, called by `validate_account`,
whose body is not among the sources. Section 6 (`append_audit`): it appends a
single line describing the event to an append-only log. The ledger is not
touched. -/
def log_audit_event (msg : String) (w : World) : World :=
  { w with trace := w.trace ++ [Event.audit msg] }

/-- Output on `cout`. -/
def cout (msg : String) (w : World) : World :=
  { w with trace := w.trace ++ [Event.report msg] }

/-- Modelled from the spec: `save_all_accounts_to_file`, called by
`validate_account`, whose body is not among the sources. Section 6
(`persist_accounts`): it flushes the entire current ledger to durable
storage. The event records the ledger that is written. -/
def save_all_accounts_to_file (w : World) : World :=
  { w with trace := w.trace ++ [Event.persist w.accounts] }

/-- Assignment to a field of the account that `key` refers to. -/
def store (key : String) (f : Account → Account) (w : World) : World :=
  { w with accounts := w.accounts.update_at key f }

/-! ## `security.cpp` -/

/-- The function `hash_pin`: `to_string(hasher(pin))`. The library functor
`std::hash<std::string>` is the parameter `hasher`. -/
def hash_pin (hasher : String → Nat) (pin : String) : String :=
  toString (hasher pin)

/-- The function `is_strong_pin`. `pin[0]` of an empty string is the
terminating `'\0'`. -/
def is_strong_pin (pin : String) : Bool :=
  if pin.length ≠ 4 then false
  else if pin.data.all (fun c => decide (c = pin.data.headD (Char.ofNat 0))) then false
  else true

/-- Modelled from the spec: `check_inactivity(Account&)`, called by
`validate_account`, whose body is not among the sources. Section 4.4: it computes the
elapsed calendar days between the account's `last_transaction_date` and the
current date; if elapsed ≥ INACTIVITY_LOCK_DAYS (180) and status is ACTIVE,
it transitions status to LOCKED and triggers an audit event and persistence.
The parameter `elapsed` gives the elapsed days for a stored date at the time
of the call; the wording of the audit line is not fixed by the spec. -/
def check_inactivity (elapsed : String → Int) (key : String) (w : World) : World :=
  match w.accounts.find key with
  | none => w
  | some acc =>
    if INACTIVITY_LOCK_DAYS ≤ elapsed acc.last_transaction_date ∧ acc.status = "ACTIVE" then
      let w := store key (fun a => { a with status := "LOCKED" }) w
      let w := log_audit_event ("Account locked due to inactivity: " ++ key) w
      save_all_accounts_to_file w
    else w

/-- The part of `validate_account` after the inactivity check (lines 33-58),
run on the account `acc` that the reference refers to. -/
def validate_found (hasher : String → Nat) (acc_number pin : String) (acc : Account)
    (w : World) : Bool × World :=
  if acc.status = "LOCKED" then
    let w := log_audit_event ("Attempt to access locked account: " ++ acc_number) w
    let w := cout "Account locked due to too many failed attempts or inactivity. Please contact customer support.\n" w
    (false, w)
  else
    let hashed_pin := hash_pin hasher pin
    if acc.pin_hash = hashed_pin then
      let w := store acc_number (fun a => { a with failed_attempts := 0 }) w
      let w := log_audit_event ("Successful login: " ++ acc_number) w
      (true, w)
    else
      let attempts := wrap_int (acc.failed_attempts + 1)
      let w := store acc_number (fun a => { a with failed_attempts := attempts }) w
      let w := log_audit_event ("Failed login attempt for account: " ++ acc_number
        ++ " (attempt " ++ toString attempts ++ ")") w
      if attempts ≥ MAX_FAILED_ATTEMPTS then
        let w := store acc_number (fun a => { a with status := "LOCKED" }) w
        let w := save_all_accounts_to_file w
        let w := log_audit_event ("Account locked: " ++ acc_number) w
        let w := cout "Account locked due to too many failed attempts. Please contact customer support.\n" w
        (false, w)
      else
        let w := cout ("Invalid PIN. " ++ toString (wrap_int (MAX_FAILED_ATTEMPTS - attempts))
          ++ " attempts remaining.\n") w
        let w := save_all_accounts_to_file w
        (false, w)

/-- The function `validate_account` (lines 22-59). After the lookup has
succeeded the reference `acc` stays valid, so the second lookup, which reads
the account after `check_inactivity`, cannot fail. -/
def validate_account (hasher : String → Nat) (elapsed : String → Int)
    (acc_number pin : String) (w : World) : Bool × World :=
  match w.accounts.find acc_number with
  | none =>
    let w := log_audit_event ("Failed login attempt - account not found: " ++ acc_number) w
    let w := cout "Account not found.\n" w
    (false, w)
  | some _ =>
    let w := check_inactivity elapsed acc_number w
    match w.accounts.find acc_number with
    | none => (false, w)
    | some acc => validate_found hasher acc_number pin acc w

/-! ## Sequences of calls -/

/-- One call of `validate_account`: the clock at the time of the call and the
two arguments. -/
structure Call where
  elapsed : String → Int
  acc_number : String
  pin : String

/-- Runs the calls in order; returns the results in order and the final
state. -/
def run_calls (hasher : String → Nat) : List Call → World → List Bool × World
  | [], w => ([], w)
  | c :: cs, w =>
    let r := validate_account hasher c.elapsed c.acc_number c.pin w
    let rest := run_calls hasher cs r.2
    (r.1 :: rest.1, rest.2)

/-! ## Account-level view of a call

The functions `inactivity_step`, `pin_step` and `account_after` are not part
of the source: they describe, for the one account a call names, what
`check_inactivity` and `validate_account` do to it.
`validate_account_accounts` proves that the embedded code agrees with them.
The remaining definitions of this section read the trace of a call. -/

/-- Effect of `check_inactivity` on the account it is given. -/
def inactivity_step (elapsed : String → Int) (a : Account) : Account :=
  if INACTIVITY_LOCK_DAYS ≤ elapsed a.last_transaction_date ∧ a.status = "ACTIVE" then
    { a with status := "LOCKED" }
  else a

/-- Effect of the PIN comparison (lines 33-58) on the account. -/
def pin_step (hasher : String → Nat) (pin : String) (a : Account) : Account :=
  if a.status = "LOCKED" then a
  else if a.pin_hash = hash_pin hasher pin then { a with failed_attempts := 0 }
  else if wrap_int (a.failed_attempts + 1) ≥ MAX_FAILED_ATTEMPTS then
    { a with failed_attempts := wrap_int (a.failed_attempts + 1), status := "LOCKED" }
  else { a with failed_attempts := wrap_int (a.failed_attempts + 1) }

/-- Effect of a whole call on the account it names. -/
def account_after (hasher : String → Nat) (elapsed : String → Int) (pin : String)
    (a : Account) : Account :=
  pin_step hasher pin (inactivity_step elapsed a)

/-- Status of the account that `key` names, if there is one. -/
def status_of (w : World) (key : String) : Option String :=
  (w.accounts.find key).map Account.status

/-- The events a call appended to the trace `before`. -/
def emitted (before : List Event) (w : World) : List Event :=
  w.trace.drop before.length

/-- The ledger written by the last `save_all_accounts_to_file` among the
events, if there was one. -/
def last_persisted : List Event → Option Ledger
  | [] => none
  | Event.persist l :: rest =>
    match last_persisted rest with
    | some l2 => some l2
    | none => some l
  | _ :: rest => last_persisted rest

/-- The counter of the account is within bounds, and a full counter means a
locked account: the invariant behind the bound on `failed_attempts`. -/
def counter_ok (a : Account) : Prop :=
  (0 ≤ a.failed_attempts ∧ a.failed_attempts ≤ MAX_FAILED_ATTEMPTS)
    ∧ (MAX_FAILED_ATTEMPTS ≤ a.failed_attempts → a.status = "LOCKED")

/-- Number of `log_audit_event` calls among the events. -/
def audit_count : List Event → Nat
  | [] => 0
  | Event.audit _ :: rest => audit_count rest + 1
  | _ :: rest => audit_count rest

/-- Recorded failures of the account that `key` names, if there is one. -/
def failed_attempts_of (w : World) (key : String) : Option Int :=
  (w.accounts.find key).map Account.failed_attempts

/-- The lines written by `log_audit_event` among the events, in order. -/
def audits : List Event → List String
  | [] => []
  | Event.audit msg :: rest => msg :: audits rest
  | _ :: rest => audits rest

/-- The line `msg` contains the text `part`. -/
def mentions (msg part : String) : Prop :=
  ∃ pre post : String, msg = pre ++ part ++ post

/-- The text that line 54 sends to `cout` when the streamed count is `k`. -/
def invalid_pin_report (k : Int) : String :=
  "Invalid PIN. " ++ toString k ++ " attempts remaining.\n"

/-! ## Concrete data for the scenarios -/

/-- A stand-in for `std::hash<std::string>` on concrete inputs: a polynomial
hash of the characters, reduced to 64 bits. -/
def demo_hasher (s : String) : Nat :=
  s.data.foldl (fun h c => (h * 31 + c.toNat) % 18446744073709551616) 7

/-- A clock under which every stored date is one day old. -/
def demo_clock : String → Int := fun _ => 1

/-- An account numbered "A001" with PIN "1234", balance 10000 and the given
status and failed-attempt count. -/
def demo_account (status : String) (failed : Int) : Account :=
  { account_number := "A001", name := "Asha", pin_hash := hash_pin demo_hasher "1234",
    gender := "F", phone_number := "5550100", age := 30, account_type := "SAVINGS",
    email := "asha@example.org", address := "1 Main Road", cif_number := "CIF001",
    ifsc_code := "IFSC0001", micr_code := "MICR0001", branch_name := "Main",
    branch_address := "1 Bank Street", balance := 10000, status := status,
    opening_date := "2024-01-01", failed_attempts := failed,
    last_transaction_date := "2024-06-01", daily_withdrawal_total := 0 }

/-- A world whose ledger holds only the account "A001". -/
def demo_world (status : String) (failed : Int) : World :=
  { accounts := [("A001", demo_account status failed)], trace := [] }

/-- Two calls on "A001": a wrong PIN, then the correct one. -/
def demo_calls : List Call :=
  [{ elapsed := demo_clock, acc_number := "A001", pin := "9999" },
   { elapsed := demo_clock, acc_number := "A001", pin := "1234" }]

/-- Five calls: four on "A001" with a wrong PIN, the last of them under a
clock that makes every date 200 days old, and one on an unknown account. -/
def demo_calls_long : List Call :=
  [{ elapsed := demo_clock, acc_number := "A001", pin := "9999" },
   { elapsed := demo_clock, acc_number := "A001", pin := "0000" },
   { elapsed := demo_clock, acc_number := "B777", pin := "1234" },
   { elapsed := demo_clock, acc_number := "A001", pin := "9999" },
   { elapsed := fun _ => 200, acc_number := "A001", pin := "9999" }]

/-- Three calls on "A001", each with a wrong PIN. -/
def demo_calls_wrong : List Call :=
  [{ elapsed := demo_clock, acc_number := "A001", pin := "9999" },
   { elapsed := demo_clock, acc_number := "A001", pin := "0000" },
   { elapsed := demo_clock, acc_number := "A001", pin := "4321" }]

/-- A world whose ledger holds only the ACTIVE account "A001", with the given
PIN and no recorded failure. -/
def demo_world_pin (pin : String) : World :=
  { accounts := [("A001", { demo_account "ACTIVE" 0 with
      pin_hash := hash_pin demo_hasher pin })], trace := [] }

/-- A clock under which every stored date is 200 days old. -/
def stale_clock : String → Int := fun _ => 200

/-! ## Lemmas on the ledger -/

theorem Ledger.update_at_of_find_none (l : Ledger) (key : String) (f : Account → Account)
    (h : l.find key = none) : l.update_at key f = l := by
  induction l with
  | nil => rfl
  | cons p rest ih =>
    obtain ⟨k, a⟩ := p
    by_cases hk : k = key
    · simp [Ledger.find, hk] at h
    · simp only [Ledger.find, hk, if_false] at h
      simp [Ledger.update_at, hk, ih h]

theorem Ledger.find_update_at_same (l : Ledger) (key : String) (f : Account → Account) :
    (l.update_at key f).find key = (l.find key).map f := by
  induction l with
  | nil => rfl
  | cons p rest ih =>
    obtain ⟨k, a⟩ := p
    by_cases hk : k = key
    · simp [Ledger.find, Ledger.update_at, hk]
    · simp [Ledger.find, Ledger.update_at, hk, ih]

theorem Ledger.find_update_at_other (l : Ledger) (key other : String) (f : Account → Account)
    (hne : other ≠ key) : (l.update_at key f).find other = l.find other := by
  induction l with
  | nil => rfl
  | cons p rest ih =>
    obtain ⟨k, a⟩ := p
    by_cases hk : k = key
    · have hko : ¬ k = other := fun h => hne (h.symm.trans hk)
      simp only [Ledger.update_at, hk, if_true, Ledger.find]
      rw [if_neg (hk ▸ hko), if_neg (hk ▸ hko)]
    · by_cases hko : k = other
      · subst hko
        simp only [Ledger.update_at, hk, if_false, Ledger.find, if_true]
      · simp only [Ledger.update_at, hk, if_false, Ledger.find, hko, ih]

theorem Ledger.update_at_congr (l : Ledger) (key : String) (f g : Account → Account)
    (h : ∀ a, l.find key = some a → f a = g a) : l.update_at key f = l.update_at key g := by
  induction l with
  | nil => rfl
  | cons p rest ih =>
    obtain ⟨k, a⟩ := p
    by_cases hk : k = key
    · have := h a (by simp [Ledger.find, hk])
      simp [Ledger.update_at, hk, this]
    · have hrest : ∀ b, Ledger.find rest key = some b → f b = g b := by
        intro b hb
        exact h b (by simp [Ledger.find, hk, hb])
      simp [Ledger.update_at, hk, ih hrest]

theorem Ledger.update_at_update_at (l : Ledger) (key : String) (f g : Account → Account) :
    (l.update_at key f).update_at key g = l.update_at key (fun a => g (f a)) := by
  induction l with
  | nil => rfl
  | cons p rest ih =>
    obtain ⟨k, a⟩ := p
    by_cases hk : k = key
    · simp [Ledger.update_at, hk]
    · simp [Ledger.update_at, hk, ih]

theorem Ledger.update_at_self (l : Ledger) (key : String) (f : Account → Account)
    (h : ∀ a, l.find key = some a → f a = a) : l.update_at key f = l := by
  induction l with
  | nil => rfl
  | cons p rest ih =>
    obtain ⟨k, a⟩ := p
    by_cases hk : k = key
    · have := h a (by simp [Ledger.find, hk])
      simp [Ledger.update_at, hk, this]
    · have hrest : ∀ b, Ledger.find rest key = some b → f b = b := by
        intro b hb
        exact h b (by simp [Ledger.find, hk, hb])
      simp [Ledger.update_at, hk, ih hrest]

theorem Ledger.forall_update_at (l : Ledger) (key : String) (f : Account → Account)
    (P : Account → Prop) (hl : ∀ p ∈ l, P p.2) (hf : ∀ a, P a → P (f a)) :
    ∀ p ∈ l.update_at key f, P p.2 := by
  induction l with
  | nil => intro p hp; simp [Ledger.update_at] at hp
  | cons q rest ih =>
    obtain ⟨k, a⟩ := q
    have ha : P a := hl (k, a) (List.mem_cons_self _ _)
    have hrest : ∀ p ∈ rest, P p.2 := fun p hp => hl p (List.mem_cons_of_mem _ hp)
    intro p hp
    by_cases hk : k = key
    · simp only [Ledger.update_at, hk, if_true, List.mem_cons] at hp
      rcases hp with rfl | hp
      · exact hf a ha
      · exact hrest p hp
    · simp only [Ledger.update_at, hk, if_false, List.mem_cons] at hp
      rcases hp with rfl | hp
      · exact ha
      · exact ih hrest p hp

/-! ## The embedded code agrees with the account-level view -/

theorem check_inactivity_accounts (elapsed : String → Int) (key : String) (w : World) :
    (check_inactivity elapsed key w).accounts
      = w.accounts.update_at key (inactivity_step elapsed) := by
  unfold check_inactivity
  cases hfind : w.accounts.find key with
  | none => simp [Ledger.update_at_of_find_none _ _ _ hfind]
  | some acc =>
    by_cases hc : INACTIVITY_LOCK_DAYS ≤ elapsed acc.last_transaction_date ∧ acc.status = "ACTIVE"
    · simp only [hc, and_self, if_true, save_all_accounts_to_file, log_audit_event, store]
      apply Ledger.update_at_congr
      intro a ha
      rw [hfind] at ha
      cases ha
      simp [inactivity_step, hc]
    · simp only [hc, if_false]
      symm
      apply Ledger.update_at_self
      intro a ha
      rw [hfind] at ha
      cases ha
      simp [inactivity_step, hc]

theorem validate_found_accounts (hasher : String → Nat) (key pin : String) (acc : Account)
    (w : World) (hfind : w.accounts.find key = some acc) :
    (validate_found hasher key pin acc w).2.accounts
      = w.accounts.update_at key (pin_step hasher pin) := by
  unfold validate_found
  by_cases hl : acc.status = "LOCKED"
  · simp only [hl, if_true, log_audit_event, cout]
    symm
    apply Ledger.update_at_self
    intro a ha
    rw [hfind] at ha
    cases ha
    simp [pin_step, hl]
  · by_cases hp : acc.pin_hash = hash_pin hasher pin
    · simp only [hl, hp, if_true, if_false, log_audit_event, store]
      apply Ledger.update_at_congr
      intro a ha
      rw [hfind] at ha
      cases ha
      simp [pin_step, hl, hp]
    · by_cases hm : wrap_int (acc.failed_attempts + 1) ≥ MAX_FAILED_ATTEMPTS
      · simp only [hl, hp, hm, if_true, if_false, log_audit_event, store, cout,
          save_all_accounts_to_file]
        rw [Ledger.update_at_update_at]
        apply Ledger.update_at_congr
        intro a ha
        rw [hfind] at ha
        cases ha
        simp [pin_step, hl, hp, hm]
      · simp only [hl, hp, hm, if_false, log_audit_event, store, cout,
          save_all_accounts_to_file]
        apply Ledger.update_at_congr
        intro a ha
        rw [hfind] at ha
        cases ha
        simp [pin_step, hl, hp, hm]

theorem validate_account_accounts (hasher : String → Nat) (elapsed : String → Int)
    (key pin : String) (w : World) :
    (validate_account hasher elapsed key pin w).2.accounts
      = w.accounts.update_at key (account_after hasher elapsed pin) := by
  unfold validate_account
  cases hfind : w.accounts.find key with
  | none => simp [log_audit_event, cout, Ledger.update_at_of_find_none _ _ _ hfind]
  | some a =>
    have h1 : (check_inactivity elapsed key w).accounts.find key
        = some (inactivity_step elapsed a) := by
      rw [check_inactivity_accounts, Ledger.find_update_at_same, hfind]; rfl
    simp only [h1]
    rw [validate_found_accounts hasher key pin _ _ h1, check_inactivity_accounts,
      Ledger.update_at_update_at]
    rfl

theorem validate_found_result (hasher : String → Nat) (key pin : String) (acc : Account)
    (w : World) :
    (validate_found hasher key pin acc w).1
      = decide (acc.status ≠ "LOCKED" ∧ acc.pin_hash = hash_pin hasher pin) := by
  unfold validate_found
  by_cases hl : acc.status = "LOCKED"
  · simp [hl]
  · by_cases hp : acc.pin_hash = hash_pin hasher pin
    · simp [hl, hp]
    · by_cases hm : wrap_int (acc.failed_attempts + 1) ≥ MAX_FAILED_ATTEMPTS
      · simp [hl, hp, hm]
      · simp [hl, hp, hm]

theorem validate_account_result_none (hasher : String → Nat) (elapsed : String → Int)
    (key pin : String) (w : World) (hfind : w.accounts.find key = none) :
    (validate_account hasher elapsed key pin w).1 = false := by
  unfold validate_account
  simp [hfind]

theorem check_inactivity_find (elapsed : String → Int) (key : String) (w : World)
    (a : Account) (hfind : w.accounts.find key = some a) :
    (check_inactivity elapsed key w).accounts.find key = some (inactivity_step elapsed a) := by
  rw [check_inactivity_accounts, Ledger.find_update_at_same, hfind]; rfl

theorem validate_account_result_some (hasher : String → Nat) (elapsed : String → Int)
    (key pin : String) (w : World) (a : Account) (hfind : w.accounts.find key = some a) :
    (validate_account hasher elapsed key pin w).1
      = decide ((inactivity_step elapsed a).status ≠ "LOCKED"
          ∧ (inactivity_step elapsed a).pin_hash = hash_pin hasher pin) := by
  unfold validate_account
  simp only [hfind, check_inactivity_find elapsed key w a hfind]
  exact validate_found_result hasher key pin _ _

theorem validate_account_find_same (hasher : String → Nat) (elapsed : String → Int)
    (key pin : String) (w : World) (a : Account) (hfind : w.accounts.find key = some a) :
    (validate_account hasher elapsed key pin w).2.accounts.find key
      = some (account_after hasher elapsed pin a) := by
  rw [validate_account_accounts, Ledger.find_update_at_same, hfind]; rfl

theorem validate_account_find_other (hasher : String → Nat) (elapsed : String → Int)
    (key pin other : String) (w : World) (hne : other ≠ key) :
    (validate_account hasher elapsed key pin w).2.accounts.find other
      = w.accounts.find other := by
  rw [validate_account_accounts, Ledger.find_update_at_other _ _ _ _ hne]

/-! ## Lemmas on the account-level view -/

theorem inactivity_step_pin_hash (elapsed : String → Int) (a : Account) :
    (inactivity_step elapsed a).pin_hash = a.pin_hash := by
  unfold inactivity_step
  split <;> rfl

theorem inactivity_step_fresh (elapsed : String → Int) (a : Account)
    (h : elapsed a.last_transaction_date < INACTIVITY_LOCK_DAYS) :
    inactivity_step elapsed a = a := by
  unfold inactivity_step
  rw [if_neg]
  intro hc
  exact absurd hc.1 (not_le.mpr h)

theorem inactivity_step_not_active (elapsed : String → Int) (a : Account)
    (h : a.status ≠ "ACTIVE") : inactivity_step elapsed a = a := by
  unfold inactivity_step
  rw [if_neg]
  intro hc
  exact h hc.2

theorem inactivity_step_of_not_locked (elapsed : String → Int) (a : Account)
    (h : (inactivity_step elapsed a).status ≠ "LOCKED") : inactivity_step elapsed a = a := by
  unfold inactivity_step at h ⊢
  split
  · rename_i hc
    rw [if_pos hc] at h
    exact absurd rfl h
  · rfl

theorem pin_step_locked (hasher : String → Nat) (pin : String) (a : Account)
    (h : a.status = "LOCKED") : pin_step hasher pin a = a := by
  unfold pin_step
  rw [if_pos h]

theorem wrap_int_of_range (x : Int) (hlo : INT_MIN ≤ x) (hhi : x ≤ INT_MAX) :
    wrap_int x = x := by
  unfold wrap_int
  unfold INT_MIN at hlo
  unfold INT_MAX at hhi
  omega

theorem inactivity_step_counter_ok (elapsed : String → Int) (a : Account)
    (h : counter_ok a) : counter_ok (inactivity_step elapsed a) := by
  unfold counter_ok at h ⊢
  unfold inactivity_step
  split
  · exact ⟨h.1, fun _ => rfl⟩
  · exact h

theorem pin_step_counter_ok (hasher : String → Nat) (pin : String) (b : Account)
    (h : counter_ok b) : counter_ok (pin_step hasher pin b) := by
  unfold counter_ok at h ⊢
  obtain ⟨⟨b0, b3⟩, bl⟩ := h
  unfold MAX_FAILED_ATTEMPTS at b3 bl ⊢
  unfold pin_step
  by_cases hlocked : b.status = "LOCKED"
  · simp only [hlocked, if_true]
    exact ⟨⟨b0, b3⟩, fun _ => trivial⟩
  · have hlt : b.failed_attempts < 3 := by
      by_contra hge
      exact hlocked (bl (not_lt.mp hge))
    have hwrap : wrap_int (b.failed_attempts + 1) = b.failed_attempts + 1 := by
      apply wrap_int_of_range
      · unfold INT_MIN; omega
      · unfold INT_MAX; omega
    by_cases hp : b.pin_hash = hash_pin hasher pin
    · simp only [hlocked, hp, if_true, if_false]
      exact ⟨⟨le_refl _, by decide⟩, fun h => absurd h (by decide)⟩
    · simp only [hlocked, hp, if_false, hwrap, MAX_FAILED_ATTEMPTS]
      by_cases hm : b.failed_attempts + 1 ≥ 3
      · simp only [hm, if_true]
        exact ⟨⟨by omega, by omega⟩, fun _ => trivial⟩
      · simp only [hm, if_false]
        exact ⟨⟨by omega, by omega⟩, fun h => False.elim h⟩

theorem account_after_counter_ok (hasher : String → Nat) (elapsed : String → Int)
    (pin : String) (a : Account) (h : counter_ok a) :
    counter_ok (account_after hasher elapsed pin a) :=
  pin_step_counter_ok hasher pin _ (inactivity_step_counter_ok elapsed a h)

theorem Ledger.keys_update_at (l : Ledger) (key : String) (f : Account → Account) :
    (l.update_at key f).map Prod.fst = l.map Prod.fst := by
  induction l with
  | nil => rfl
  | cons p rest ih =>
    obtain ⟨k, a⟩ := p
    by_cases hk : k = key
    · simp [Ledger.update_at, hk]
    · simp [Ledger.update_at, hk, ih]

theorem Ledger.mem_update_at_other (l : Ledger) (key : String) (f : Account → Account)
    (p : String × Account) (hp : p.1 ≠ key) : p ∈ l.update_at key f ↔ p ∈ l := by
  induction l with
  | nil => simp [Ledger.update_at]
  | cons q rest ih =>
    obtain ⟨k, a⟩ := q
    by_cases hk : k = key
    · simp only [Ledger.update_at, hk, if_true, List.mem_cons]
      constructor
      · rintro (h | h)
        · exact absurd (congrArg Prod.fst h) hp
        · exact Or.inr h
      · rintro (h | h)
        · exact absurd (congrArg Prod.fst h) hp
        · exact Or.inr h
    · simp only [Ledger.update_at, hk, if_false, List.mem_cons, ih]

theorem account_after_frame (hasher : String → Nat) (elapsed : String → Int) (pin : String)
    (a : Account) :
    account_after hasher elapsed pin a
      = { a with failed_attempts := (account_after hasher elapsed pin a).failed_attempts,
                 status := (account_after hasher elapsed pin a).status } := by
  unfold account_after pin_step inactivity_step
  split <;> split <;> first | rfl | (split <;> first | rfl | (split <;> rfl))

theorem pin_step_lockout (hasher : String → Nat) (pin : String) (b : Account) :
    MAX_FAILED_ATTEMPTS ≤ (pin_step hasher pin b).failed_attempts →
      (pin_step hasher pin b).status = "LOCKED" := by
  unfold pin_step
  by_cases hlocked : b.status = "LOCKED"
  · simp only [hlocked, if_true]
    exact fun _ => trivial
  · by_cases hp : b.pin_hash = hash_pin hasher pin
    · simp only [hlocked, hp, if_true, if_false]
      intro h
      exact absurd h (by decide)
    · by_cases hm : wrap_int (b.failed_attempts + 1) ≥ MAX_FAILED_ATTEMPTS
      · simp only [hlocked, hp, hm, if_true, if_false]
        exact fun _ => trivial
      · simp only [hlocked, hp, if_false]
        rw [if_neg hm]
        intro h
        exact absurd h hm

/-! ## The effects of a call, branch by branch -/

theorem emitted_append (before evs : List Event) (accounts : Ledger) :
    emitted before { accounts := accounts, trace := before ++ evs } = evs := by
  simp [emitted]

theorem validate_account_of_find (hasher : String → Nat) (elapsed : String → Int)
    (key pin : String) (w : World) (a : Account) (hfind : w.accounts.find key = some a) :
    validate_account hasher elapsed key pin w
      = validate_found hasher key pin (inactivity_step elapsed a)
          (check_inactivity elapsed key w) := by
  unfold validate_account
  simp only [hfind, check_inactivity_find elapsed key w a hfind]

theorem check_inactivity_of_not_locked (elapsed : String → Int) (key : String) (w : World)
    (a : Account) (hfind : w.accounts.find key = some a)
    (hopen : (inactivity_step elapsed a).status ≠ "LOCKED") :
    check_inactivity elapsed key w = w := by
  unfold check_inactivity
  simp only [hfind]
  rw [if_neg]
  intro hc
  apply hopen
  unfold inactivity_step
  rw [if_pos hc]

theorem check_inactivity_trace (elapsed : String → Int) (key : String) (w : World) :
    ∃ evs, (check_inactivity elapsed key w).trace = w.trace ++ evs
      ∧ ∀ msg, Event.report msg ∉ evs := by
  unfold check_inactivity
  cases hfind : w.accounts.find key with
  | none => exact ⟨[], by simp, by simp⟩
  | some acc =>
    by_cases hc : INACTIVITY_LOCK_DAYS ≤ elapsed acc.last_transaction_date ∧ acc.status = "ACTIVE"
    · refine ⟨[Event.audit ("Account locked due to inactivity: " ++ key),
        Event.persist (w.accounts.update_at key (fun a => { a with status := "LOCKED" }))],
        ?_, ?_⟩
      · simp [hc, save_all_accounts_to_file, log_audit_event, store]
      · intro msg hmem
        simp at hmem
    · exact ⟨[], by simp [hc], by simp⟩

theorem validate_found_trace_locked (hasher : String → Nat) (key pin : String) (acc : Account)
    (v : World) (hlocked : acc.status = "LOCKED") :
    (validate_found hasher key pin acc v).2.trace
      = v.trace ++ [Event.audit ("Attempt to access locked account: " ++ key),
          Event.report "Account locked due to too many failed attempts or inactivity. Please contact customer support.\n"] := by
  unfold validate_found
  simp [hlocked, log_audit_event, cout]

theorem validate_found_trace_success (hasher : String → Nat) (key pin : String) (acc : Account)
    (v : World) (hopen : acc.status ≠ "LOCKED") (hpin : acc.pin_hash = hash_pin hasher pin) :
    (validate_found hasher key pin acc v).2.trace
      = v.trace ++ [Event.audit ("Successful login: " ++ key)] := by
  unfold validate_found
  simp [hopen, hpin, log_audit_event, store]

theorem validate_found_trace_lock (hasher : String → Nat) (key pin : String) (acc : Account)
    (v : World) (hopen : acc.status ≠ "LOCKED") (hpin : acc.pin_hash ≠ hash_pin hasher pin)
    (hfull : wrap_int (acc.failed_attempts + 1) ≥ MAX_FAILED_ATTEMPTS) :
    (validate_found hasher key pin acc v).2.trace
      = v.trace ++ [Event.audit ("Failed login attempt for account: " ++ key ++ " (attempt "
            ++ toString (wrap_int (acc.failed_attempts + 1)) ++ ")"),
          Event.persist (validate_found hasher key pin acc v).2.accounts,
          Event.audit ("Account locked: " ++ key),
          Event.report "Account locked due to too many failed attempts. Please contact customer support.\n"] := by
  unfold validate_found
  simp only [hopen, hpin, hfull, if_true, if_false, log_audit_event, store, cout,
    save_all_accounts_to_file]
  simp

theorem validate_found_trace_retry (hasher : String → Nat) (key pin : String) (acc : Account)
    (v : World) (hopen : acc.status ≠ "LOCKED") (hpin : acc.pin_hash ≠ hash_pin hasher pin)
    (hroom : ¬ wrap_int (acc.failed_attempts + 1) ≥ MAX_FAILED_ATTEMPTS) :
    (validate_found hasher key pin acc v).2.trace
      = v.trace ++ [Event.audit ("Failed login attempt for account: " ++ key ++ " (attempt "
            ++ toString (wrap_int (acc.failed_attempts + 1)) ++ ")"),
          Event.report (invalid_pin_report
            (wrap_int (MAX_FAILED_ATTEMPTS - wrap_int (acc.failed_attempts + 1)))),
          Event.persist (validate_found hasher key pin acc v).2.accounts] := by
  unfold validate_found
  simp only [hopen, hpin, hroom, if_false, log_audit_event, store, cout,
    save_all_accounts_to_file, invalid_pin_report]
  simp

theorem unknown_account_trace (hasher : String → Nat) (elapsed : String → Int)
    (key pin : String) (w : World) (hfind : w.accounts.find key = none) :
    (validate_account hasher elapsed key pin w).2.trace
      = w.trace ++ [Event.audit ("Failed login attempt - account not found: " ++ key),
          Event.report "Account not found.\n"] := by
  unfold validate_account
  simp [hfind, log_audit_event, cout]

theorem audits_emitted (before evs : List Event) (w : World)
    (h : w.trace = before ++ evs) : audits (emitted before w) = audits evs := by
  simp [emitted, h]

theorem validate_found_failed_attempts (hasher : String → Nat) (key pin : String)
    (acc : Account) (v : World) (hfind : v.accounts.find key = some acc)
    (hopen : acc.status ≠ "LOCKED") (hpin : acc.pin_hash ≠ hash_pin hasher pin) :
    failed_attempts_of (validate_found hasher key pin acc v).2 key
      = some (wrap_int (acc.failed_attempts + 1)) := by
  unfold failed_attempts_of
  rw [validate_found_accounts hasher key pin acc v hfind, Ledger.find_update_at_same, hfind]
  simp only [Option.map, pin_step, hopen, hpin, if_false]
  split <;> rfl

theorem mentions_middle (pre part post : String) : mentions (pre ++ part ++ post) part :=
  ⟨pre, post, rfl⟩

theorem mentions_end (pre part : String) : mentions (pre ++ part) part :=
  ⟨pre, "", by simp⟩

theorem mentions_failed_attempt (key count : String) :
    mentions ("Failed login attempt for account: " ++ key ++ " (attempt " ++ count ++ ")")
      key :=
  ⟨"Failed login attempt for account: ", " (attempt " ++ count ++ ")",
    by simp [String.append_assoc]⟩

/-! ## The remaining-attempts report -/

theorem emitted_of_trace (before evs : List Event) (w : World)
    (h : w.trace = before ++ evs) : emitted before w = evs := by
  simp [emitted, h]

theorem invalid_pin_report_head (k : Int) :
    (invalid_pin_report k).data.head? = some 'I' := by
  unfold invalid_pin_report
  simp only [String.data_append]
  rfl

theorem invalid_pin_report_ne (k : Int) (text : String) (htext : text.data.head? ≠ some 'I') :
    invalid_pin_report k ≠ text := by
  intro h
  apply htext
  rw [← h]
  exact invalid_pin_report_head k

theorem retry_events (hasher : String → Nat) (elapsed : String → Int) (key pin : String)
    (w : World) (a : Account) (hfind : w.accounts.find key = some a)
    (hopen : (inactivity_step elapsed a).status ≠ "LOCKED")
    (hpin : a.pin_hash ≠ hash_pin hasher pin)
    (hroom : ¬ wrap_int (a.failed_attempts + 1) ≥ MAX_FAILED_ATTEMPTS) :
    emitted w.trace (validate_account hasher elapsed key pin w).2
        = [Event.audit ("Failed login attempt for account: " ++ key ++ " (attempt "
              ++ toString (wrap_int (a.failed_attempts + 1)) ++ ")"),
            Event.report (invalid_pin_report
              (wrap_int (MAX_FAILED_ATTEMPTS - wrap_int (a.failed_attempts + 1)))),
            Event.persist (validate_account hasher elapsed key pin w).2.accounts]
      ∧ (validate_account hasher elapsed key pin w).2.accounts.find key
          = some { a with failed_attempts := wrap_int (a.failed_attempts + 1) } := by
  have hsame := inactivity_step_of_not_locked elapsed a hopen
  have hw := check_inactivity_of_not_locked elapsed key w a hfind hopen
  have hrun := validate_account_of_find hasher elapsed key pin w a hfind
  rw [hsame, hw] at hrun
  rw [hsame] at hopen
  constructor
  · apply emitted_of_trace
    rw [hrun]
    exact validate_found_trace_retry hasher key pin a w hopen hpin hroom
  · rw [validate_account_find_same hasher elapsed key pin w a hfind]
    simp only [account_after, hsame, pin_step, hopen, hpin, if_false]
    rw [if_neg hroom]

theorem retry_report_branch (hasher : String → Nat) (elapsed : String → Int)
    (key pin : String) (w : World)
    (h : ∃ k, Event.report (invalid_pin_report k)
      ∈ emitted w.trace (validate_account hasher elapsed key pin w).2) :
    ∃ a, w.accounts.find key = some a ∧ (inactivity_step elapsed a).status ≠ "LOCKED"
      ∧ a.pin_hash ≠ hash_pin hasher pin
      ∧ ¬ wrap_int (a.failed_attempts + 1) ≥ MAX_FAILED_ATTEMPTS := by
  obtain ⟨k, hk⟩ := h
  cases hfind : w.accounts.find key with
  | none =>
    rw [emitted_of_trace _ _ _ (unknown_account_trace hasher elapsed key pin w hfind)] at hk
    simp only [List.mem_cons, List.mem_singleton, List.not_mem_nil, or_false,
      Event.report.injEq, reduceCtorEq, false_or] at hk
    exact absurd hk (invalid_pin_report_ne k _ (by decide))
  | some a =>
    obtain ⟨ievs, hi, hno⟩ := check_inactivity_trace elapsed key w
    rw [validate_account_of_find hasher elapsed key pin w a hfind] at hk
    by_cases hl : (inactivity_step elapsed a).status = "LOCKED"
    · have ht := validate_found_trace_locked hasher key pin (inactivity_step elapsed a)
        (check_inactivity elapsed key w) hl
      rw [hi, List.append_assoc] at ht
      rw [emitted_of_trace _ _ _ ht] at hk
      rcases List.mem_append.mp hk with h1 | h2
      · exact absurd h1 (hno _)
      · simp only [List.mem_cons, List.mem_singleton, List.not_mem_nil, or_false,
          Event.report.injEq, reduceCtorEq, false_or] at h2
        exact absurd h2 (invalid_pin_report_ne k _ (by decide))
    · have hsame := inactivity_step_of_not_locked elapsed a hl
      by_cases hp : a.pin_hash = hash_pin hasher pin
      · have ht := validate_found_trace_success hasher key pin (inactivity_step elapsed a)
          (check_inactivity elapsed key w) hl (by rw [hsame]; exact hp)
        rw [hi, List.append_assoc] at ht
        rw [emitted_of_trace _ _ _ ht] at hk
        rcases List.mem_append.mp hk with h1 | h2
        · exact absurd h1 (hno _)
        · simp only [List.mem_singleton, reduceCtorEq] at h2
      · by_cases hfull : wrap_int (a.failed_attempts + 1) ≥ MAX_FAILED_ATTEMPTS
        · have ht := validate_found_trace_lock hasher key pin (inactivity_step elapsed a)
            (check_inactivity elapsed key w) hl (by rw [hsame]; exact hp)
            (by rw [hsame]; exact hfull)
          rw [hi, List.append_assoc] at ht
          rw [emitted_of_trace _ _ _ ht] at hk
          rcases List.mem_append.mp hk with h1 | h2
          · exact absurd h1 (hno _)
          · simp only [List.mem_cons, List.mem_singleton, List.not_mem_nil, or_false,
              Event.report.injEq, reduceCtorEq, false_or] at h2
            exact absurd h2 (invalid_pin_report_ne k _ (by decide))
        · exact ⟨a, rfl, hl, hp, hfull⟩

theorem retry_events_in_range (hasher : String → Nat) (elapsed : String → Int)
    (key pin : String) (w : World) (a : Account) (hfind : w.accounts.find key = some a)
    (hopen : (inactivity_step elapsed a).status ≠ "LOCKED")
    (hpin : a.pin_hash ≠ hash_pin hasher pin)
    (hroom : ¬ wrap_int (a.failed_attempts + 1) ≥ MAX_FAILED_ATTEMPTS)
    (hlo : -2147483645 ≤ a.failed_attempts) (hhi : a.failed_attempts < INT_MAX) :
    emitted w.trace (validate_account hasher elapsed key pin w).2
        = [Event.audit ("Failed login attempt for account: " ++ key ++ " (attempt "
              ++ toString (a.failed_attempts + 1) ++ ")"),
            Event.report (invalid_pin_report (MAX_FAILED_ATTEMPTS - (a.failed_attempts + 1))),
            Event.persist (validate_account hasher elapsed key pin w).2.accounts]
      ∧ (validate_account hasher elapsed key pin w).2.accounts.find key
          = some { a with failed_attempts := a.failed_attempts + 1 }
      ∧ 1 ≤ MAX_FAILED_ATTEMPTS - (a.failed_attempts + 1) := by
  have hwrap : wrap_int (a.failed_attempts + 1) = a.failed_attempts + 1 := by
    apply wrap_int_of_range
    · unfold INT_MIN; omega
    · unfold INT_MAX at hhi ⊢; omega
  have hsmall : a.failed_attempts + 1 < 3 := by
    rw [hwrap] at hroom
    unfold MAX_FAILED_ATTEMPTS at hroom
    omega
  have hwrap2 : wrap_int (MAX_FAILED_ATTEMPTS - (a.failed_attempts + 1))
      = MAX_FAILED_ATTEMPTS - (a.failed_attempts + 1) := by
    apply wrap_int_of_range
    · unfold INT_MIN MAX_FAILED_ATTEMPTS; omega
    · unfold INT_MAX MAX_FAILED_ATTEMPTS; omega
  obtain ⟨h1, h2⟩ := retry_events hasher elapsed key pin w a hfind hopen hpin hroom
  rw [hwrap, hwrap2] at h1
  rw [hwrap] at h2
  refine ⟨h1, h2, ?_⟩
  unfold MAX_FAILED_ATTEMPTS
  omega

/-! ## Claims -/

/-- C1: `validate_account` returns true exactly when the account number is a
key of the ledger, the status of that account after the inactivity check is
not "LOCKED", and `hash_pin pin` equals the stored `pin_hash`; in every other
case it returns false. -/
theorem validate_account_true_iff (hasher : String → Nat) (elapsed : String → Int)
    (acc_number pin : String) (w : World) :
    ((validate_account hasher elapsed acc_number pin w).1 = true ↔
      ∃ a a1, w.accounts.find acc_number = some a
        ∧ (check_inactivity elapsed acc_number w).accounts.find acc_number = some a1
        ∧ a1.status ≠ "LOCKED" ∧ hash_pin hasher pin = a.pin_hash)
    ∧ ((validate_account hasher elapsed acc_number pin w).1 = false ↔
      ¬ ∃ a a1, w.accounts.find acc_number = some a
        ∧ (check_inactivity elapsed acc_number w).accounts.find acc_number = some a1
        ∧ a1.status ≠ "LOCKED" ∧ hash_pin hasher pin = a.pin_hash) := by
  have key : (validate_account hasher elapsed acc_number pin w).1 = true ↔
      ∃ a a1, w.accounts.find acc_number = some a
        ∧ (check_inactivity elapsed acc_number w).accounts.find acc_number = some a1
        ∧ a1.status ≠ "LOCKED" ∧ hash_pin hasher pin = a.pin_hash := by
    cases hfind : w.accounts.find acc_number with
    | none =>
      rw [validate_account_result_none hasher elapsed acc_number pin w hfind]
      simp
    | some a =>
      rw [validate_account_result_some hasher elapsed acc_number pin w a hfind,
        check_inactivity_find elapsed acc_number w a hfind, inactivity_step_pin_hash]
      constructor
      · intro h
        have h2 := of_decide_eq_true h
        exact ⟨a, inactivity_step elapsed a, rfl, rfl, h2.1, h2.2.symm⟩
      · rintro ⟨b, b1, hb, hb1, hst, hh⟩
        cases hb
        cases hb1
        exact decide_eq_true ⟨hst, hh.symm⟩
  refine ⟨key, ?_⟩
  rw [← key]
  cases (validate_account hasher elapsed acc_number pin w).1 <;> simp

/-- C2: on an ACTIVE, non-stale account with no recorded failure, three
consecutive calls with wrong PINs each return false, leave `failed_attempts`
at 1, 2 and 3, leave the status ACTIVE after the first two and LOCKED after
the third; a fourth call with the correct PIN then returns false. -/
theorem three_wrong_pins_lock (hasher : String → Nat) (elapsed : String → Int)
    (acc_number good p1 p2 p3 : String) (w : World) (a : Account)
    (hfind : w.accounts.find acc_number = some a)
    (hactive : a.status = "ACTIVE")
    (hfresh : elapsed a.last_transaction_date < INACTIVITY_LOCK_DAYS)
    (hzero : a.failed_attempts = 0)
    (_hgood : hash_pin hasher good = a.pin_hash)
    (hp1 : hash_pin hasher p1 ≠ a.pin_hash)
    (hp2 : hash_pin hasher p2 ≠ a.pin_hash)
    (hp3 : hash_pin hasher p3 ≠ a.pin_hash) :
    let r1 := validate_account hasher elapsed acc_number p1 w
    let r2 := validate_account hasher elapsed acc_number p2 r1.2
    let r3 := validate_account hasher elapsed acc_number p3 r2.2
    let r4 := validate_account hasher elapsed acc_number good r3.2
    (r1.1 = false
      ∧ r1.2.accounts.find acc_number = some { a with failed_attempts := 1 }
      ∧ status_of r1.2 acc_number = some "ACTIVE")
    ∧ (r2.1 = false
      ∧ r2.2.accounts.find acc_number = some { a with failed_attempts := 2 }
      ∧ status_of r2.2 acc_number = some "ACTIVE")
    ∧ (r3.1 = false
      ∧ r3.2.accounts.find acc_number
          = some { a with failed_attempts := 3, status := "LOCKED" }
      ∧ status_of r3.2 acc_number = some "LOCKED")
    ∧ r4.1 = false := by
  intro r1 r2 r3 r4
  have hnl : ¬ a.status = "LOCKED" := by rw [hactive]; decide
  have e1 : r1.2.accounts.find acc_number = some { a with failed_attempts := 1 } := by
    show (validate_account hasher elapsed acc_number p1 w).2.accounts.find acc_number = _
    rw [validate_account_find_same hasher elapsed acc_number p1 w a hfind]
    simp only [account_after, inactivity_step_fresh elapsed a hfresh, pin_step, hnl,
      Ne.symm hp1, if_false, hzero]
    rfl
  have e2 : r2.2.accounts.find acc_number = some { a with failed_attempts := 2 } := by
    show (validate_account hasher elapsed acc_number p2 r1.2).2.accounts.find acc_number = _
    rw [validate_account_find_same hasher elapsed acc_number p2 r1.2 _ e1]
    simp only [account_after, inactivity_step_fresh elapsed
      { a with failed_attempts := 1 } hfresh, pin_step, hnl,
      Ne.symm hp2, if_false]
    rfl
  have e3 : r3.2.accounts.find acc_number
      = some { a with failed_attempts := 3, status := "LOCKED" } := by
    show (validate_account hasher elapsed acc_number p3 r2.2).2.accounts.find acc_number = _
    rw [validate_account_find_same hasher elapsed acc_number p3 r2.2 _ e2]
    simp only [account_after, inactivity_step_fresh elapsed
      { a with failed_attempts := 2 } hfresh, pin_step, hnl,
      Ne.symm hp3, if_false]
    rfl
  have s1 : status_of r1.2 acc_number = some "ACTIVE" := by
    unfold status_of
    rw [e1]
    exact congrArg some hactive
  have s2 : status_of r2.2 acc_number = some "ACTIVE" := by
    unfold status_of
    rw [e2]
    exact congrArg some hactive
  have s3 : status_of r3.2 acc_number = some "LOCKED" := by
    unfold status_of
    rw [e3]
    rfl
  refine ⟨⟨?_, e1, s1⟩, ⟨?_, e2, s2⟩, ⟨?_, e3, s3⟩, ?_⟩
  · show (validate_account hasher elapsed acc_number p1 w).1 = false
    rw [validate_account_result_some hasher elapsed acc_number p1 w a hfind,
      inactivity_step_fresh elapsed a hfresh]
    simp [Ne.symm hp1]
  · show (validate_account hasher elapsed acc_number p2 r1.2).1 = false
    rw [validate_account_result_some hasher elapsed acc_number p2 r1.2 _ e1,
      inactivity_step_fresh elapsed { a with failed_attempts := 1 } hfresh]
    simp [Ne.symm hp2]
  · show (validate_account hasher elapsed acc_number p3 r2.2).1 = false
    rw [validate_account_result_some hasher elapsed acc_number p3 r2.2 _ e2,
      inactivity_step_fresh elapsed { a with failed_attempts := 2 } hfresh]
    simp [Ne.symm hp3]
  · show (validate_account hasher elapsed acc_number good r3.2).1 = false
    rw [validate_account_result_some hasher elapsed acc_number good r3.2 _ e3,
      inactivity_step_not_active elapsed
        { a with failed_attempts := 3, status := "LOCKED" }
        (by show ("LOCKED" : String) ≠ "ACTIVE"; decide)]
    simp

/-- C2, the scenario of the spec: account "A001" with PIN "1234", three calls
with the wrong PIN "9999", then one with "1234". -/
theorem three_wrong_pins_lock_witness :
    let w := demo_world "ACTIVE" 0
    let a := demo_account "ACTIVE" 0
    let r1 := validate_account demo_hasher demo_clock "A001" "9999" w
    let r2 := validate_account demo_hasher demo_clock "A001" "9999" r1.2
    let r3 := validate_account demo_hasher demo_clock "A001" "9999" r2.2
    let r4 := validate_account demo_hasher demo_clock "A001" "1234" r3.2
    (w.accounts.find "A001" = some a ∧ a.status = "ACTIVE"
      ∧ demo_clock a.last_transaction_date < INACTIVITY_LOCK_DAYS
      ∧ a.failed_attempts = 0
      ∧ hash_pin demo_hasher "1234" = a.pin_hash
      ∧ hash_pin demo_hasher "9999" ≠ a.pin_hash)
    ∧ (r1.1 = false
      ∧ r1.2.accounts.find "A001" = some { a with failed_attempts := 1 }
      ∧ status_of r1.2 "A001" = some "ACTIVE")
    ∧ (r2.1 = false
      ∧ r2.2.accounts.find "A001" = some { a with failed_attempts := 2 }
      ∧ status_of r2.2 "A001" = some "ACTIVE")
    ∧ (r3.1 = false
      ∧ r3.2.accounts.find "A001"
          = some { a with failed_attempts := 3, status := "LOCKED" }
      ∧ status_of r3.2 "A001" = some "LOCKED")
    ∧ r4.1 = false :=
  ⟨⟨by decide, by decide, by decide, by decide, by decide, by decide⟩,
    three_wrong_pins_lock demo_hasher demo_clock "A001" "1234" "9999" "9999" "9999"
      (demo_world "ACTIVE" 0) (demo_account "ACTIVE" 0)
      (by decide) (by decide) (by decide) (by decide) (by decide) (by decide) (by decide)
      (by decide)⟩

/-- C3: "LOCKED" is absorbing. On a ledger where the named account is LOCKED,
a call with any PIN returns false and leaves the whole ledger, hence every
field of that account, unchanged; and after any finite sequence of calls
(for any clocks, account numbers and PINs) the account is still the same
LOCKED account and every call of the sequence that named it returned false. -/
theorem locked_is_absorbing (hasher : String → Nat) (elapsed : String → Int)
    (acc_number pin : String) (w : World) (a : Account)
    (hfind : w.accounts.find acc_number = some a) (hlocked : a.status = "LOCKED") :
    (validate_account hasher elapsed acc_number pin w).1 = false
      ∧ (validate_account hasher elapsed acc_number pin w).2.accounts = w.accounts
      ∧ ∀ cs : List Call,
          (run_calls hasher cs w).2.accounts.find acc_number = some a
          ∧ ∀ p ∈ List.zip cs (run_calls hasher cs w).1,
              p.1.acc_number = acc_number → p.2 = false := by
  have hna : a.status ≠ "ACTIVE" := by rw [hlocked]; decide
  have hstep : ∀ (e : String → Int) (q : String), account_after hasher e q a = a := by
    intro e q
    unfold account_after
    rw [inactivity_step_not_active e a hna, pin_step_locked hasher q a hlocked]
  have hres : ∀ (e : String → Int) (q : String) (v : World),
      v.accounts.find acc_number = some a →
      (validate_account hasher e acc_number q v).1 = false := by
    intro e q v hv
    rw [validate_account_result_some hasher e acc_number q v a hv,
      inactivity_step_not_active e a hna]
    simp [hlocked]
  refine ⟨hres elapsed pin w hfind, ?_, ?_⟩
  · rw [validate_account_accounts]
    apply Ledger.update_at_self
    intro b hb
    rw [hfind] at hb
    cases hb
    exact hstep elapsed pin
  · intro cs
    induction cs generalizing w with
    | nil => exact ⟨hfind, by intro p hp; simp [run_calls] at hp⟩
    | cons c rest ih =>
      have hnext : (validate_account hasher c.elapsed c.acc_number c.pin w).2.accounts.find
          acc_number = some a := by
        by_cases hc : acc_number = c.acc_number
        · rw [← hc, validate_account_find_same hasher c.elapsed acc_number c.pin w a hfind,
            hstep]
        · rw [validate_account_find_other hasher c.elapsed c.acc_number c.pin acc_number w hc]
          exact hfind
      obtain ⟨ih1, ih2⟩ := ih _ hnext
      refine ⟨ih1, ?_⟩
      intro p hp hpk
      simp only [run_calls, List.zip_cons_cons, List.mem_cons] at hp
      rcases hp with rfl | hp
      · simp only at hpk ⊢
        rw [hpk]
        exact hres c.elapsed c.pin w hfind
      · exact ih2 p hp hpk

/-- C3 on the account "A001" in status LOCKED: one call with the correct PIN,
and the two calls of `demo_calls`. -/
theorem locked_is_absorbing_witness :
    ((demo_world "LOCKED" 3).accounts.find "A001" = some (demo_account "LOCKED" 3)
      ∧ (demo_account "LOCKED" 3).status = "LOCKED")
    ∧ (validate_account demo_hasher demo_clock "A001" "1234" (demo_world "LOCKED" 3)).1 = false
    ∧ (validate_account demo_hasher demo_clock "A001" "1234" (demo_world "LOCKED" 3)).2.accounts
        = (demo_world "LOCKED" 3).accounts
    ∧ (run_calls demo_hasher demo_calls (demo_world "LOCKED" 3)).2.accounts.find "A001"
        = some (demo_account "LOCKED" 3)
    ∧ (run_calls demo_hasher demo_calls (demo_world "LOCKED" 3)).1 = [false, false] :=
  ⟨⟨by decide, by decide⟩,
    (locked_is_absorbing demo_hasher demo_clock "A001" "1234" (demo_world "LOCKED" 3)
      (demo_account "LOCKED" 3) (by decide) (by decide)).1,
    (locked_is_absorbing demo_hasher demo_clock "A001" "1234" (demo_world "LOCKED" 3)
      (demo_account "LOCKED" 3) (by decide) (by decide)).2.1,
    ((locked_is_absorbing demo_hasher demo_clock "A001" "1234" (demo_world "LOCKED" 3)
      (demo_account "LOCKED" 3) (by decide) (by decide)).2.2 demo_calls).1,
    by decide⟩

/-- C4: on a non-LOCKED, non-stale account, whatever its `failed_attempts`
(in particular any value below MAX_FAILED_ATTEMPTS), a call with a PIN whose
hash equals the stored `pin_hash` returns true, sets `failed_attempts` to 0
and changes nothing else in the account, so the status is unchanged. -/
theorem correct_pin_resets (hasher : String → Nat) (elapsed : String → Int)
    (acc_number pin : String) (w : World) (a : Account)
    (hfind : w.accounts.find acc_number = some a)
    (hnot : a.status ≠ "LOCKED")
    (hfresh : elapsed a.last_transaction_date < INACTIVITY_LOCK_DAYS)
    (_hbelow : a.failed_attempts < MAX_FAILED_ATTEMPTS)
    (hpin : hash_pin hasher pin = a.pin_hash) :
    (validate_account hasher elapsed acc_number pin w).1 = true
      ∧ (validate_account hasher elapsed acc_number pin w).2.accounts.find acc_number
          = some { a with failed_attempts := 0 }
      ∧ ((validate_account hasher elapsed acc_number pin w).2.accounts.find acc_number).map
          Account.failed_attempts = some 0
      ∧ ((validate_account hasher elapsed acc_number pin w).2.accounts.find acc_number).map
          Account.status = some a.status := by
  have hafter : (validate_account hasher elapsed acc_number pin w).2.accounts.find acc_number
      = some { a with failed_attempts := 0 } := by
    rw [validate_account_find_same hasher elapsed acc_number pin w a hfind]
    simp only [account_after, inactivity_step_fresh elapsed a hfresh, pin_step, hnot,
      hpin.symm, if_false, if_true]
  refine ⟨?_, hafter, ?_, ?_⟩
  · rw [validate_account_result_some hasher elapsed acc_number pin w a hfind,
      inactivity_step_fresh elapsed a hfresh]
    exact decide_eq_true ⟨hnot, hpin.symm⟩
  · rw [hafter]; rfl
  · rw [hafter]; rfl

/-- C4 on the account "A001", ACTIVE with two recorded failures, and its PIN
"1234". -/
theorem correct_pin_resets_witness :
    ((demo_world "ACTIVE" 2).accounts.find "A001" = some (demo_account "ACTIVE" 2)
      ∧ (demo_account "ACTIVE" 2).status ≠ "LOCKED"
      ∧ demo_clock (demo_account "ACTIVE" 2).last_transaction_date < INACTIVITY_LOCK_DAYS
      ∧ (demo_account "ACTIVE" 2).failed_attempts < MAX_FAILED_ATTEMPTS
      ∧ hash_pin demo_hasher "1234" = (demo_account "ACTIVE" 2).pin_hash)
    ∧ (validate_account demo_hasher demo_clock "A001" "1234" (demo_world "ACTIVE" 2)).1 = true
      ∧ (validate_account demo_hasher demo_clock "A001" "1234"
          (demo_world "ACTIVE" 2)).2.accounts.find "A001"
          = some { demo_account "ACTIVE" 2 with failed_attempts := 0 }
      ∧ ((validate_account demo_hasher demo_clock "A001" "1234"
          (demo_world "ACTIVE" 2)).2.accounts.find "A001").map Account.failed_attempts = some 0
      ∧ ((validate_account demo_hasher demo_clock "A001" "1234"
          (demo_world "ACTIVE" 2)).2.accounts.find "A001").map Account.status
          = some (demo_account "ACTIVE" 2).status :=
  ⟨⟨by decide, by decide, by decide, by decide, by decide⟩,
    correct_pin_resets demo_hasher demo_clock "A001" "1234" (demo_world "ACTIVE" 2)
      (demo_account "ACTIVE" 2) (by decide) (by decide) (by decide) (by decide) (by decide)⟩

/-- C5: `is_strong_pin pin` is true exactly when `pin` has 4 characters and
at least one of them differs from the first. It is false for "1111", for the
empty string and for every string of 3 or 5 characters; it is true for
"1234", "1212" and "abcd". -/
theorem is_strong_pin_iff :
    (∀ pin : String, is_strong_pin pin = true ↔
      pin.length = 4 ∧ ∃ c ∈ pin.data, some c ≠ pin.data.head?)
    ∧ is_strong_pin "1111" = false
    ∧ is_strong_pin "" = false
    ∧ (∀ pin : String, pin.length = 3 ∨ pin.length = 5 → is_strong_pin pin = false)
    ∧ is_strong_pin "1234" = true
    ∧ is_strong_pin "1212" = true
    ∧ is_strong_pin "abcd" = true := by
  refine ⟨?_, by decide, by decide, ?_, by decide, by decide, by decide⟩
  · intro pin
    unfold is_strong_pin
    by_cases hlen : pin.length = 4
    · have hdata : pin.data.length = 4 := hlen
      obtain ⟨x, rest, hx⟩ : ∃ x rest, pin.data = x :: rest := by
        cases hd : pin.data with
        | nil => rw [hd] at hdata; simp at hdata
        | cons x rest => exact ⟨x, rest, rfl⟩
      simp only [hlen, ne_eq, not_true_eq_false, if_false, true_and, hx, List.headD_cons,
        List.head?_cons]
      constructor
      · intro h
        by_cases hall : (x :: rest).all (fun c => decide (c = x)) = true
        · rw [if_pos hall] at h
          cases h
        · simp only [List.all_eq_true, decide_eq_true_eq, not_forall] at hall
          obtain ⟨c, hc, hne⟩ := hall
          exact ⟨c, hc, fun h2 => hne (Option.some.inj h2)⟩
      · rintro ⟨c, hc, hne⟩
        rw [if_neg]
        simp only [List.all_eq_true, decide_eq_true_eq, not_forall]
        exact ⟨c, hc, fun h2 => hne (by rw [h2])⟩
    · simp [hlen]
  · intro pin hpin
    unfold is_strong_pin
    rcases hpin with h | h <;> simp [h]

/-- C6: for an account number that is not a key of the ledger, a call with any
PIN returns false and leaves the ledger exactly as it was; its only effects
are one audit event naming the account number and one report, so no
inactivity lock and no persistence happen. -/
theorem unknown_account_rejected (hasher : String → Nat) (elapsed : String → Int)
    (acc_number pin : String) (w : World) (hfind : w.accounts.find acc_number = none) :
    validate_account hasher elapsed acc_number pin w
        = (false, { accounts := w.accounts,
                    trace := w.trace ++
                      [Event.audit ("Failed login attempt - account not found: " ++ acc_number),
                       Event.report "Account not found.\n"] })
      ∧ (validate_account hasher elapsed acc_number pin w).1 = false
      ∧ (validate_account hasher elapsed acc_number pin w).2.accounts = w.accounts
      ∧ emitted w.trace (validate_account hasher elapsed acc_number pin w).2
          = [Event.audit ("Failed login attempt - account not found: " ++ acc_number),
             Event.report "Account not found.\n"]
      ∧ audit_count (emitted w.trace (validate_account hasher elapsed acc_number pin w).2) = 1
      ∧ last_persisted (emitted w.trace (validate_account hasher elapsed acc_number pin w).2)
          = none := by
  have hrun : validate_account hasher elapsed acc_number pin w
      = (false, { accounts := w.accounts,
                  trace := w.trace ++
                    [Event.audit ("Failed login attempt - account not found: " ++ acc_number),
                     Event.report "Account not found.\n"] }) := by
    unfold validate_account
    simp [hfind, log_audit_event, cout]
  have hem : emitted w.trace (validate_account hasher elapsed acc_number pin w).2
      = [Event.audit ("Failed login attempt - account not found: " ++ acc_number),
         Event.report "Account not found.\n"] := by
    rw [hrun]
    simp [emitted]
  refine ⟨hrun, ?_, ?_, hem, ?_, ?_⟩
  · rw [hrun]
  · rw [hrun]
  · rw [hem]; rfl
  · rw [hem]; rfl

/-- C6 on the one-account ledger and the unknown account number "B777". -/
theorem unknown_account_rejected_witness :
    (demo_world "ACTIVE" 0).accounts.find "B777" = none
    ∧ (validate_account demo_hasher demo_clock "B777" "1234" (demo_world "ACTIVE" 0)).1 = false
    ∧ (validate_account demo_hasher demo_clock "B777" "1234" (demo_world "ACTIVE" 0)).2.accounts
        = (demo_world "ACTIVE" 0).accounts
    ∧ audit_count (emitted (demo_world "ACTIVE" 0).trace
        (validate_account demo_hasher demo_clock "B777" "1234" (demo_world "ACTIVE" 0)).2) = 1 :=
  ⟨by decide,
    (unknown_account_rejected demo_hasher demo_clock "B777" "1234" (demo_world "ACTIVE" 0)
      (by decide)).2.1,
    (unknown_account_rejected demo_hasher demo_clock "B777" "1234" (demo_world "ACTIVE" 0)
      (by decide)).2.2.1,
    (unknown_account_rejected demo_hasher demo_clock "B777" "1234" (demo_world "ACTIVE" 0)
      (by decide)).2.2.2.2.1⟩

/-- C7 as stated fails where the counter cannot grow: on an ACTIVE, non-stale
account whose `failed_attempts` is INT_MAX, a call with a wrong PIN does not
leave the previous value plus 1. -/
theorem wrong_pin_increment_counterexample :
    (demo_world "ACTIVE" 2147483647).accounts.find "A001"
        = some (demo_account "ACTIVE" 2147483647)
    ∧ (check_inactivity demo_clock "A001" (demo_world "ACTIVE" 2147483647)).accounts.find "A001"
        = some (demo_account "ACTIVE" 2147483647)
    ∧ (demo_account "ACTIVE" 2147483647).status ≠ "LOCKED"
    ∧ hash_pin demo_hasher "9999" ≠ (demo_account "ACTIVE" 2147483647).pin_hash
    ∧ ¬ (((validate_account demo_hasher demo_clock "A001" "9999"
          (demo_world "ACTIVE" 2147483647)).2.accounts.find "A001").map Account.failed_attempts
        = some ((demo_account "ACTIVE" 2147483647).failed_attempts + 1)) := by
  decide

/-- C7, amended: if the named account is not LOCKED after the inactivity
check, its `failed_attempts` is an `int` below INT_MAX, and the hash of the
PIN differs from the stored `pin_hash`, then the call returns false, the
`failed_attempts` afterwards is the previous value plus 1, and the status
afterwards is "LOCKED" if the new `failed_attempts` is at least
MAX_FAILED_ATTEMPTS and is unchanged otherwise. -/
theorem wrong_pin_counts (hasher : String → Nat) (elapsed : String → Int)
    (acc_number pin : String) (w : World) (a a1 : Account)
    (hfind : w.accounts.find acc_number = some a)
    (hcheck : (check_inactivity elapsed acc_number w).accounts.find acc_number = some a1)
    (hopen : a1.status ≠ "LOCKED")
    (hpin : hash_pin hasher pin ≠ a.pin_hash)
    (hlo : INT_MIN ≤ a.failed_attempts) (hhi : a.failed_attempts < INT_MAX) :
    (validate_account hasher elapsed acc_number pin w).1 = false
      ∧ ∃ a2, (validate_account hasher elapsed acc_number pin w).2.accounts.find acc_number
          = some a2
        ∧ a2.failed_attempts = a.failed_attempts + 1
        ∧ a2.status
            = if a2.failed_attempts ≥ MAX_FAILED_ATTEMPTS then "LOCKED" else a.status := by
  rw [check_inactivity_find elapsed acc_number w a hfind] at hcheck
  cases hcheck
  have hsame := inactivity_step_of_not_locked elapsed a hopen
  rw [hsame] at hopen
  have hwrap : wrap_int (a.failed_attempts + 1) = a.failed_attempts + 1 := by
    apply wrap_int_of_range
    · unfold INT_MIN at hlo ⊢; omega
    · unfold INT_MAX at hhi ⊢; omega
  refine ⟨?_, ?_⟩
  · rw [validate_account_result_some hasher elapsed acc_number pin w a hfind, hsame]
    simp [Ne.symm hpin]
  · refine ⟨account_after hasher elapsed pin a,
      validate_account_find_same hasher elapsed acc_number pin w a hfind, ?_, ?_⟩
    · simp only [account_after, hsame, pin_step, hopen, Ne.symm hpin, if_false, hwrap]
      split <;> rfl
    · simp only [account_after, hsame, pin_step, hopen, Ne.symm hpin, if_false, hwrap]
      by_cases hm : a.failed_attempts + 1 ≥ MAX_FAILED_ATTEMPTS
      · simp [hm]
      · simp [hm]

/-- C7, amended, on "A001" with two recorded failures and the wrong PIN
"9999": the third failure locks the account. -/
theorem wrong_pin_counts_witness :
    ((demo_world "ACTIVE" 2).accounts.find "A001" = some (demo_account "ACTIVE" 2)
      ∧ (check_inactivity demo_clock "A001" (demo_world "ACTIVE" 2)).accounts.find "A001"
          = some (demo_account "ACTIVE" 2)
      ∧ (demo_account "ACTIVE" 2).status ≠ "LOCKED"
      ∧ hash_pin demo_hasher "9999" ≠ (demo_account "ACTIVE" 2).pin_hash
      ∧ INT_MIN ≤ (demo_account "ACTIVE" 2).failed_attempts
      ∧ (demo_account "ACTIVE" 2).failed_attempts < INT_MAX)
    ∧ (validate_account demo_hasher demo_clock "A001" "9999" (demo_world "ACTIVE" 2)).1 = false
    ∧ ∃ a2, (validate_account demo_hasher demo_clock "A001" "9999"
          (demo_world "ACTIVE" 2)).2.accounts.find "A001" = some a2
        ∧ a2.failed_attempts = (demo_account "ACTIVE" 2).failed_attempts + 1
        ∧ a2.status = if a2.failed_attempts ≥ MAX_FAILED_ATTEMPTS then "LOCKED"
            else (demo_account "ACTIVE" 2).status :=
  ⟨⟨by decide, by decide, by decide, by decide, by decide, by decide⟩,
    wrong_pin_counts demo_hasher demo_clock "A001" "9999" (demo_world "ACTIVE" 2)
      (demo_account "ACTIVE" 2) (demo_account "ACTIVE" 2)
      (by decide) (by decide) (by decide) (by decide) (by decide) (by decide)⟩

/-- C8: starting from a ledger in which every account has `failed_attempts`
0, after any finite sequence of calls (any clocks, account numbers and PINs)
every account of the ledger has `failed_attempts` between 0 and
MAX_FAILED_ATTEMPTS (3). -/
theorem failed_attempts_bounded (hasher : String → Nat) (w : World)
    (hzero : ∀ p ∈ w.accounts, p.2.failed_attempts = 0) (cs : List Call) :
    ∀ p ∈ (run_calls hasher cs w).2.accounts,
      0 ≤ p.2.failed_attempts ∧ p.2.failed_attempts ≤ MAX_FAILED_ATTEMPTS
        ∧ p.2.failed_attempts ≤ 3 := by
  have hinv : ∀ (cs : List Call) (v : World),
      (∀ p ∈ v.accounts, counter_ok p.2) →
      ∀ p ∈ (run_calls hasher cs v).2.accounts, counter_ok p.2 := by
    intro cs
    induction cs with
    | nil => intro v hv; exact hv
    | cons c rest ih =>
      intro v hv
      apply ih
      rw [validate_account_accounts]
      exact Ledger.forall_update_at v.accounts c.acc_number
        (account_after hasher c.elapsed c.pin) counter_ok hv
        (account_after_counter_ok hasher c.elapsed c.pin)
  have hstart : ∀ p ∈ w.accounts, counter_ok p.2 := by
    intro p hp
    unfold counter_ok
    rw [hzero p hp]
    exact ⟨⟨le_refl _, by decide⟩, fun h => absurd h (by decide)⟩
  intro p hp
  have := hinv cs w hstart p hp
  exact ⟨this.1.1, this.1.2, this.1.2⟩

/-- C8 on the one-account ledger and the five calls of `demo_calls_long`. -/
theorem failed_attempts_bounded_witness :
    (∀ p ∈ (demo_world "ACTIVE" 0).accounts, p.2.failed_attempts = 0)
    ∧ ∀ p ∈ (run_calls demo_hasher demo_calls_long (demo_world "ACTIVE" 0)).2.accounts,
        0 ≤ p.2.failed_attempts ∧ p.2.failed_attempts ≤ MAX_FAILED_ATTEMPTS
          ∧ p.2.failed_attempts ≤ 3 :=
  ⟨by decide,
    failed_attempts_bounded demo_hasher (demo_world "ACTIVE" 0) (by decide) demo_calls_long⟩

/-- C9, the code at the failing input: a CLOSED account with two recorded
failures is moved to "LOCKED" by a call with a wrong PIN, a transition that
is neither "no change" nor ACTIVE to LOCKED. The same happens to a CLOSED
account without recorded failures after three calls with wrong PINs. -/
theorem closed_account_gets_locked :
    ((demo_world "CLOSED" 2).accounts.find "A001").map Account.status = some "CLOSED"
    ∧ hash_pin demo_hasher "9999" ≠ (demo_account "CLOSED" 2).pin_hash
    ∧ (validate_account demo_hasher demo_clock "A001" "9999" (demo_world "CLOSED" 2)).1 = false
    ∧ ((validate_account demo_hasher demo_clock "A001" "9999"
        (demo_world "CLOSED" 2)).2.accounts.find "A001").map Account.status = some "LOCKED"
    ∧ ((demo_world "CLOSED" 0).accounts.find "A001").map Account.status = some "CLOSED"
    ∧ ((run_calls demo_hasher demo_calls_wrong (demo_world "CLOSED" 0)).2.accounts.find
        "A001").map Account.status = some "LOCKED" := by
  decide

/-- C10, the code at the failing input: a successful login on an account with
two recorded failures resets `failed_attempts` to 0 in memory, and the only
effect of the call is the audit line; `save_all_accounts_to_file` is not
called. After a wrong PIN followed by the correct one, the ledger last
written out still has `failed_attempts` 1 while the ledger in memory has 0. -/
theorem successful_login_not_persisted :
    ((demo_world "ACTIVE" 2).accounts.find "A001").map Account.failed_attempts = some 2
    ∧ (validate_account demo_hasher demo_clock "A001" "1234" (demo_world "ACTIVE" 2)).1 = true
    ∧ ((validate_account demo_hasher demo_clock "A001" "1234"
        (demo_world "ACTIVE" 2)).2.accounts.find "A001").map Account.failed_attempts = some 0
    ∧ emitted (demo_world "ACTIVE" 2).trace
        (validate_account demo_hasher demo_clock "A001" "1234" (demo_world "ACTIVE" 2)).2
        = [Event.audit "Successful login: A001"]
    ∧ last_persisted (emitted (demo_world "ACTIVE" 2).trace
        (validate_account demo_hasher demo_clock "A001" "1234" (demo_world "ACTIVE" 2)).2)
        = none
    ∧ (run_calls demo_hasher demo_calls (demo_world "ACTIVE" 0)).1 = [false, true]
    ∧ (run_calls demo_hasher demo_calls (demo_world "ACTIVE" 0)).2.accounts
        = [("A001", demo_account "ACTIVE" 0)]
    ∧ last_persisted (run_calls demo_hasher demo_calls (demo_world "ACTIVE" 0)).2.trace
        = some [("A001", demo_account "ACTIVE" 1)] := by
  decide

/-- C11: frame of `validate_account`. The account numbers of the ledger are
the same, in the same order, before and after the call; every account under
another number is unchanged; and the named account afterwards is the one
before with at most `failed_attempts` and `status` replaced, so that
`account_number`, `pin_hash`, `balance`, `daily_withdrawal_total`,
`last_transaction_date` and all identity and branch fields are unchanged. -/
theorem validate_account_frame (hasher : String → Nat) (elapsed : String → Int)
    (acc_number pin : String) (w : World) :
    (validate_account hasher elapsed acc_number pin w).2.accounts.map Prod.fst
        = w.accounts.map Prod.fst
    ∧ (∀ other : String, other ≠ acc_number →
        (validate_account hasher elapsed acc_number pin w).2.accounts.find other
          = w.accounts.find other)
    ∧ (∀ p : String × Account, p.1 ≠ acc_number →
        (p ∈ (validate_account hasher elapsed acc_number pin w).2.accounts ↔ p ∈ w.accounts))
    ∧ (w.accounts.find acc_number = none →
        (validate_account hasher elapsed acc_number pin w).2.accounts = w.accounts)
    ∧ (∀ a : Account, w.accounts.find acc_number = some a →
        ∃ a2, (validate_account hasher elapsed acc_number pin w).2.accounts.find acc_number
            = some a2
          ∧ a2 = { a with failed_attempts := a2.failed_attempts, status := a2.status }
          ∧ a2.account_number = a.account_number ∧ a2.pin_hash = a.pin_hash
          ∧ a2.balance = a.balance ∧ a2.daily_withdrawal_total = a.daily_withdrawal_total
          ∧ a2.last_transaction_date = a.last_transaction_date) := by
  refine ⟨?_, ?_, ?_, ?_, ?_⟩
  · rw [validate_account_accounts, Ledger.keys_update_at]
  · intro other hne
    exact validate_account_find_other hasher elapsed acc_number pin other w hne
  · intro p hp
    rw [validate_account_accounts]
    exact Ledger.mem_update_at_other w.accounts acc_number _ p hp
  · intro hnone
    rw [validate_account_accounts]
    exact Ledger.update_at_of_find_none _ _ _ hnone
  · intro a hfind
    have hframe := account_after_frame hasher elapsed pin a
    refine ⟨account_after hasher elapsed pin a,
      validate_account_find_same hasher elapsed acc_number pin w a hfind, hframe, ?_, ?_, ?_,
      ?_, ?_⟩
    · rw [hframe]
    · rw [hframe]
    · rw [hframe]
    · rw [hframe]
    · rw [hframe]

/-- C12: the inactivity check runs before the PIN comparison. On an ACTIVE
account whose last transaction is at least INACTIVITY_LOCK_DAYS (180) days
old, a call with any PIN, in particular the correct one, returns false; the
account afterwards is the one before with status "LOCKED", so its
`failed_attempts` is neither reset nor incremented. -/
theorem stale_account_locked_first (hasher : String → Nat) (elapsed : String → Int)
    (acc_number pin : String) (w : World) (a : Account)
    (hfind : w.accounts.find acc_number = some a)
    (hactive : a.status = "ACTIVE")
    (hstale : INACTIVITY_LOCK_DAYS ≤ elapsed a.last_transaction_date) :
    (validate_account hasher elapsed acc_number pin w).1 = false
      ∧ (validate_account hasher elapsed acc_number pin w).2.accounts.find acc_number
          = some { a with status := "LOCKED" }
      ∧ status_of (validate_account hasher elapsed acc_number pin w).2 acc_number
          = some "LOCKED"
      ∧ failed_attempts_of (validate_account hasher elapsed acc_number pin w).2 acc_number
          = some a.failed_attempts := by
  have hstep : inactivity_step elapsed a = { a with status := "LOCKED" } := by
    unfold inactivity_step
    rw [if_pos ⟨hstale, hactive⟩]
  have hafter : (validate_account hasher elapsed acc_number pin w).2.accounts.find acc_number
      = some { a with status := "LOCKED" } := by
    rw [validate_account_find_same hasher elapsed acc_number pin w a hfind]
    unfold account_after
    rw [hstep, pin_step_locked hasher pin _ rfl]
  refine ⟨?_, hafter, ?_, ?_⟩
  · rw [validate_account_result_some hasher elapsed acc_number pin w a hfind, hstep]
    simp
  · unfold status_of
    rw [hafter]
    rfl
  · unfold failed_attempts_of
    rw [hafter]
    rfl

/-- C12 on "A001", ACTIVE with one recorded failure and a last transaction
200 days old, called with its correct PIN "1234". -/
theorem stale_account_locked_first_witness :
    ((demo_world "ACTIVE" 1).accounts.find "A001" = some (demo_account "ACTIVE" 1)
      ∧ (demo_account "ACTIVE" 1).status = "ACTIVE"
      ∧ INACTIVITY_LOCK_DAYS ≤ stale_clock (demo_account "ACTIVE" 1).last_transaction_date
      ∧ hash_pin demo_hasher "1234" = (demo_account "ACTIVE" 1).pin_hash)
    ∧ (validate_account demo_hasher stale_clock "A001" "1234" (demo_world "ACTIVE" 1)).1 = false
    ∧ (validate_account demo_hasher stale_clock "A001" "1234"
        (demo_world "ACTIVE" 1)).2.accounts.find "A001"
        = some { demo_account "ACTIVE" 1 with status := "LOCKED" }
    ∧ status_of (validate_account demo_hasher stale_clock "A001" "1234"
        (demo_world "ACTIVE" 1)).2 "A001" = some "LOCKED"
    ∧ failed_attempts_of (validate_account demo_hasher stale_clock "A001" "1234"
        (demo_world "ACTIVE" 1)).2 "A001" = some (demo_account "ACTIVE" 1).failed_attempts :=
  ⟨⟨by decide, by decide, by decide, by decide⟩,
    stale_account_locked_first demo_hasher stale_clock "A001" "1234" (demo_world "ACTIVE" 1)
      (demo_account "ACTIVE" 1) (by decide) (by decide) (by decide)⟩

/-- C16: from any starting state, after a call on an existing account number
the named account satisfies: `failed_attempts` at least MAX_FAILED_ATTEMPTS
implies status "LOCKED"; the call never leaves a non-LOCKED account with 3 or
more recorded failures. -/
theorem lockout_consistent (hasher : String → Nat) (elapsed : String → Int)
    (acc_number pin : String) (w : World) (a : Account)
    (hfind : w.accounts.find acc_number = some a) :
    ∃ a2, (validate_account hasher elapsed acc_number pin w).2.accounts.find acc_number
        = some a2
      ∧ (MAX_FAILED_ATTEMPTS ≤ a2.failed_attempts → a2.status = "LOCKED")
      ∧ ¬ (a2.status ≠ "LOCKED" ∧ 3 ≤ a2.failed_attempts) := by
  have hpost := pin_step_lockout hasher pin (inactivity_step elapsed a)
  refine ⟨account_after hasher elapsed pin a,
    validate_account_find_same hasher elapsed acc_number pin w a hfind, hpost, ?_⟩
  rintro ⟨hne, hge⟩
  exact hne (hpost hge)

/-- C16 on "A001" in status CLOSED with five recorded failures and the wrong
PIN "9999": afterwards it has six recorded failures and is LOCKED. -/
theorem lockout_consistent_witness :
    (demo_world "CLOSED" 5).accounts.find "A001" = some (demo_account "CLOSED" 5)
    ∧ failed_attempts_of (validate_account demo_hasher demo_clock "A001" "9999"
        (demo_world "CLOSED" 5)).2 "A001" = some 6
    ∧ ∃ a2, (validate_account demo_hasher demo_clock "A001" "9999"
          (demo_world "CLOSED" 5)).2.accounts.find "A001" = some a2
        ∧ (MAX_FAILED_ATTEMPTS ≤ a2.failed_attempts → a2.status = "LOCKED")
        ∧ ¬ (a2.status ≠ "LOCKED" ∧ 3 ≤ a2.failed_attempts) :=
  ⟨by decide, by decide,
    lockout_consistent demo_hasher demo_clock "A001" "9999" (demo_world "CLOSED" 5)
      (demo_account "CLOSED" 5) (by decide)⟩

/-- C14: `validate_account` uses the PIN only through its hash. For two PINs
with the same `hash_pin`, the two calls return the same boolean and leave the
same ledger and the same trace, hence emit the same audit events, reports
and persist calls in the same order. -/
theorem pin_used_through_hash (hasher : String → Nat) (elapsed : String → Int)
    (acc_number p q : String) (w : World) (h : hash_pin hasher p = hash_pin hasher q) :
    validate_account hasher elapsed acc_number p w
        = validate_account hasher elapsed acc_number q w
      ∧ (validate_account hasher elapsed acc_number p w).1
          = (validate_account hasher elapsed acc_number q w).1
      ∧ (validate_account hasher elapsed acc_number p w).2.accounts
          = (validate_account hasher elapsed acc_number q w).2.accounts
      ∧ emitted w.trace (validate_account hasher elapsed acc_number p w).2
          = emitted w.trace (validate_account hasher elapsed acc_number q w).2 := by
  have hfound : ∀ (acc : Account) (v : World),
      validate_found hasher acc_number p acc v = validate_found hasher acc_number q acc v := by
    intro acc v
    unfold validate_found
    rw [h]
  have hall : validate_account hasher elapsed acc_number p w
      = validate_account hasher elapsed acc_number q w := by
    unfold validate_account
    cases w.accounts.find acc_number with
    | none => rfl
    | some a =>
      simp only
      cases (check_inactivity elapsed acc_number w).accounts.find acc_number with
      | none => rfl
      | some a1 => exact hfound a1 _
  exact ⟨hall, by rw [hall], by rw [hall], by rw [hall]⟩

/-- C14 on an account whose PIN is "Aa": the different PIN "BB" has the same
hash under `demo_hasher`, and both calls log in with the same effects. -/
theorem pin_used_through_hash_witness :
    (hash_pin demo_hasher "Aa" = hash_pin demo_hasher "BB" ∧ "Aa" ≠ "BB")
    ∧ (validate_account demo_hasher demo_clock "A001" "Aa" (demo_world_pin "Aa")).1 = true
    ∧ validate_account demo_hasher demo_clock "A001" "Aa" (demo_world_pin "Aa")
        = validate_account demo_hasher demo_clock "A001" "BB" (demo_world_pin "Aa") :=
  ⟨⟨by decide, by decide⟩, by decide,
    (pin_used_through_hash demo_hasher demo_clock "A001" "Aa" "BB" (demo_world_pin "Aa")
      (by decide)).1⟩

/-- C15: the audit lines of a call, not counting those of the inactivity
check. There is exactly one line in the not-found, locked, successful-login
and non-locking mismatch branches, and exactly two (the failed attempt, then
the lock) in the mismatch branch that locks the account; every line contains
the supplied account number, and the failed-attempt line contains the
`failed_attempts` value stored by the increment. -/
theorem audit_trail (hasher : String → Nat) (elapsed : String → Int)
    (acc_number pin : String) (w : World) :
    let v := check_inactivity elapsed acc_number w
    let r := validate_account hasher elapsed acc_number pin w
    let lines := audits (emitted v.trace r.2)
    (w.accounts.find acc_number = none →
      lines = ["Failed login attempt - account not found: " ++ acc_number])
    ∧ (∀ a a1 : Account, w.accounts.find acc_number = some a →
        v.accounts.find acc_number = some a1 →
        (a1.status = "LOCKED" →
          lines = ["Attempt to access locked account: " ++ acc_number])
        ∧ (a1.status ≠ "LOCKED" → a1.pin_hash = hash_pin hasher pin →
          lines = ["Successful login: " ++ acc_number])
        ∧ (a1.status ≠ "LOCKED" → a1.pin_hash ≠ hash_pin hasher pin →
          ∃ n : Int, failed_attempts_of r.2 acc_number = some n
            ∧ (n < MAX_FAILED_ATTEMPTS →
              lines = ["Failed login attempt for account: " ++ acc_number ++ " (attempt "
                ++ toString n ++ ")"])
            ∧ (n ≥ MAX_FAILED_ATTEMPTS →
              lines = ["Failed login attempt for account: " ++ acc_number ++ " (attempt "
                ++ toString n ++ ")", "Account locked: " ++ acc_number])))
    ∧ (∀ line ∈ lines, mentions line acc_number)
    ∧ (lines.length = 1 ∨ lines.length = 2) := by
  intro v r lines
  have hnone : w.accounts.find acc_number = none →
      lines = ["Failed login attempt - account not found: " ++ acc_number] := by
    intro hfind
    have hv : v = w := by
      show check_inactivity elapsed acc_number w = w
      unfold check_inactivity
      simp only [hfind]
    have hr : r.2.trace = v.trace ++
        [Event.audit ("Failed login attempt - account not found: " ++ acc_number),
         Event.report "Account not found.\n"] := by
      rw [hv]
      show (validate_account hasher elapsed acc_number pin w).2.trace = _
      rw [(unknown_account_trace hasher elapsed acc_number pin w hfind)]
    show audits (emitted v.trace r.2) = _
    rw [audits_emitted _ _ _ hr]
    rfl
  have hlocked : ∀ a : Account, w.accounts.find acc_number = some a →
      (inactivity_step elapsed a).status = "LOCKED" →
      lines = ["Attempt to access locked account: " ++ acc_number] := by
    intro a hfind hl
    have hr := validate_found_trace_locked hasher acc_number pin (inactivity_step elapsed a)
      (check_inactivity elapsed acc_number w) hl
    rw [← validate_account_of_find hasher elapsed acc_number pin w a hfind] at hr
    exact (audits_emitted _ _ _ hr).trans rfl
  have hsuccess : ∀ a : Account, w.accounts.find acc_number = some a →
      (inactivity_step elapsed a).status ≠ "LOCKED" →
      (inactivity_step elapsed a).pin_hash = hash_pin hasher pin →
      lines = ["Successful login: " ++ acc_number] := by
    intro a hfind hl hp
    have hr := validate_found_trace_success hasher acc_number pin (inactivity_step elapsed a)
      (check_inactivity elapsed acc_number w) hl hp
    rw [← validate_account_of_find hasher elapsed acc_number pin w a hfind] at hr
    exact (audits_emitted _ _ _ hr).trans rfl
  have hretry : ∀ a : Account, w.accounts.find acc_number = some a →
      (inactivity_step elapsed a).status ≠ "LOCKED" →
      (inactivity_step elapsed a).pin_hash ≠ hash_pin hasher pin →
      ¬ wrap_int ((inactivity_step elapsed a).failed_attempts + 1) ≥ MAX_FAILED_ATTEMPTS →
      lines = ["Failed login attempt for account: " ++ acc_number ++ " (attempt "
        ++ toString (wrap_int ((inactivity_step elapsed a).failed_attempts + 1)) ++ ")"] := by
    intro a hfind hl hp hroom
    have hr := validate_found_trace_retry hasher acc_number pin (inactivity_step elapsed a)
      (check_inactivity elapsed acc_number w) hl hp hroom
    rw [← validate_account_of_find hasher elapsed acc_number pin w a hfind] at hr
    exact (audits_emitted _ _ _ hr).trans rfl
  have hlock : ∀ a : Account, w.accounts.find acc_number = some a →
      (inactivity_step elapsed a).status ≠ "LOCKED" →
      (inactivity_step elapsed a).pin_hash ≠ hash_pin hasher pin →
      wrap_int ((inactivity_step elapsed a).failed_attempts + 1) ≥ MAX_FAILED_ATTEMPTS →
      lines = ["Failed login attempt for account: " ++ acc_number ++ " (attempt "
        ++ toString (wrap_int ((inactivity_step elapsed a).failed_attempts + 1)) ++ ")",
        "Account locked: " ++ acc_number] := by
    intro a hfind hl hp hfull
    have hr := validate_found_trace_lock hasher acc_number pin (inactivity_step elapsed a)
      (check_inactivity elapsed acc_number w) hl hp hfull
    rw [← validate_account_of_find hasher elapsed acc_number pin w a hfind] at hr
    exact (audits_emitted _ _ _ hr).trans rfl
  refine ⟨hnone, ?_, ?_, ?_⟩
  · intro a a1 hfind hcheck
    have ha1 : a1 = inactivity_step elapsed a := by
      have := check_inactivity_find elapsed acc_number w a hfind
      rw [hcheck] at this
      exact Option.some.inj this
    subst ha1
    refine ⟨hlocked a hfind, hsuccess a hfind, ?_⟩
    intro hl hp
    refine ⟨wrap_int ((inactivity_step elapsed a).failed_attempts + 1), ?_, ?_, ?_⟩
    · show failed_attempts_of (validate_account hasher elapsed acc_number pin w).2 acc_number = _
      rw [validate_account_of_find hasher elapsed acc_number pin w a hfind]
      exact validate_found_failed_attempts hasher acc_number pin _ _ hcheck hl hp
    · intro hlt
      exact hretry a hfind hl hp (not_le.mpr hlt)
    · intro hge
      exact hlock a hfind hl hp hge
  · intro line hline
    cases hfind : w.accounts.find acc_number with
    | none =>
      rw [hnone hfind] at hline
      simp only [List.mem_singleton] at hline
      rw [hline]
      exact mentions_end _ _
    | some a =>
      by_cases hl : (inactivity_step elapsed a).status = "LOCKED"
      · rw [hlocked a hfind hl] at hline
        simp only [List.mem_singleton] at hline
        rw [hline]
        exact mentions_end _ _
      · by_cases hp : (inactivity_step elapsed a).pin_hash = hash_pin hasher pin
        · rw [hsuccess a hfind hl hp] at hline
          simp only [List.mem_singleton] at hline
          rw [hline]
          exact mentions_end _ _
        · by_cases hfull : wrap_int ((inactivity_step elapsed a).failed_attempts + 1)
              ≥ MAX_FAILED_ATTEMPTS
          · rw [hlock a hfind hl hp hfull] at hline
            simp only [List.mem_cons, List.mem_singleton, List.not_mem_nil, or_false] at hline
            rcases hline with h1 | h2
            · rw [h1]
              exact mentions_failed_attempt _ _
            · rw [h2]
              exact mentions_end _ _
          · rw [hretry a hfind hl hp hfull] at hline
            simp only [List.mem_singleton] at hline
            rw [hline]
            exact mentions_failed_attempt _ _
  · cases hfind : w.accounts.find acc_number with
    | none => rw [hnone hfind]; exact Or.inl rfl
    | some a =>
      by_cases hl : (inactivity_step elapsed a).status = "LOCKED"
      · rw [hlocked a hfind hl]; exact Or.inl rfl
      · by_cases hp : (inactivity_step elapsed a).pin_hash = hash_pin hasher pin
        · rw [hsuccess a hfind hl hp]; exact Or.inl rfl
        · by_cases hfull : wrap_int ((inactivity_step elapsed a).failed_attempts + 1)
              ≥ MAX_FAILED_ATTEMPTS
          · rw [hlock a hfind hl hp hfull]; exact Or.inr rfl
          · rw [hretry a hfind hl hp hfull]; exact Or.inl rfl

/-- C13 as stated fails where MAX_FAILED_ATTEMPTS minus the counter is not an
`int`: on an ACTIVE, non-stale account whose `failed_attempts` is INT_MIN, a
call with a wrong PIN stores -2147483647 and reports the message with the
count -2147483646, which is negative and is not 3 minus the stored value.
From `failed_attempts` INT_MAX the reported count is -2147483645. -/
theorem remaining_attempts_counterexample :
    (demo_world "ACTIVE" (-2147483648)).accounts.find "A001"
        = some (demo_account "ACTIVE" (-2147483648))
    ∧ emitted (demo_world "ACTIVE" (-2147483648)).trace
        (validate_account demo_hasher demo_clock "A001" "9999"
          (demo_world "ACTIVE" (-2147483648))).2
        = [Event.audit "Failed login attempt for account: A001 (attempt -2147483647)",
            Event.report "Invalid PIN. -2147483646 attempts remaining.\n",
            Event.persist [("A001", demo_account "ACTIVE" (-2147483647))]]
    ∧ invalid_pin_report (-2147483646) = "Invalid PIN. -2147483646 attempts remaining.\n"
    ∧ failed_attempts_of (validate_account demo_hasher demo_clock "A001" "9999"
        (demo_world "ACTIVE" (-2147483648))).2 "A001" = some (-2147483647)
    ∧ (-2147483646 : Int) ≠ MAX_FAILED_ATTEMPTS - (-2147483647)
    ∧ ¬ (1 ≤ (-2147483646 : Int))
    ∧ Event.report "Invalid PIN. -2147483645 attempts remaining.\n"
        ∈ emitted (demo_world "ACTIVE" 2147483647).trace
            (validate_account demo_hasher demo_clock "A001" "9999"
              (demo_world "ACTIVE" 2147483647)).2 := by
  decide

/-- C13, amended: when the named account's `failed_attempts` before the call
is between -2147483645 and INT_MAX - 1, so that neither the increment nor
MAX_FAILED_ATTEMPTS minus the counter leaves the `int` range: the call
reports "Invalid PIN. K attempts remaining" exactly when the account is not
LOCKED after the inactivity check, the PIN mismatches and the account is not
LOCKED after the call; the message reported is then the one for
K = MAX_FAILED_ATTEMPTS minus the `failed_attempts` stored by the increment,
K is at least 1, and the effects of the call are the failed-attempt audit
line, this report and the persist call. For an account that started at
`failed_attempts` 0, the message of this call is the one for K = 2, and a
following call with another wrong PIN reports the one for K = 1. -/
theorem remaining_attempts_report (hasher : String → Nat) (elapsed : String → Int)
    (acc_number pin next_pin : String) (w : World)
    (hrange : ∀ a : Account, w.accounts.find acc_number = some a →
      -2147483645 ≤ a.failed_attempts ∧ a.failed_attempts < INT_MAX) :
    let r := validate_account hasher elapsed acc_number pin w
    let evs := emitted w.trace r.2
    ((∃ k, Event.report (invalid_pin_report k) ∈ evs) ↔
      ∃ a1, (check_inactivity elapsed acc_number w).accounts.find acc_number = some a1
        ∧ a1.status ≠ "LOCKED" ∧ a1.pin_hash ≠ hash_pin hasher pin
        ∧ status_of r.2 acc_number ≠ some "LOCKED")
    ∧ (∀ k, Event.report (invalid_pin_report k) ∈ evs →
        ∃ (a : Account) (n : Int), w.accounts.find acc_number = some a
          ∧ failed_attempts_of r.2 acc_number = some n
          ∧ n = a.failed_attempts + 1
          ∧ 1 ≤ MAX_FAILED_ATTEMPTS - n
          ∧ invalid_pin_report k = invalid_pin_report (MAX_FAILED_ATTEMPTS - n)
          ∧ evs = [Event.audit ("Failed login attempt for account: " ++ acc_number
                      ++ " (attempt " ++ toString n ++ ")"),
                    Event.report (invalid_pin_report (MAX_FAILED_ATTEMPTS - n)),
                    Event.persist r.2.accounts])
    ∧ (∀ a : Account, w.accounts.find acc_number = some a → a.failed_attempts = 0 →
        (∃ k, Event.report (invalid_pin_report k) ∈ evs) →
        a.pin_hash ≠ hash_pin hasher next_pin →
        Event.report (invalid_pin_report 2) ∈ evs
          ∧ Event.report (invalid_pin_report 1)
              ∈ emitted r.2.trace
                  (validate_account hasher elapsed acc_number next_pin r.2).2) := by
  intro r evs
  have hforward : ∀ k, Event.report (invalid_pin_report k) ∈ evs →
      ∃ a : Account, w.accounts.find acc_number = some a
        ∧ (inactivity_step elapsed a).status ≠ "LOCKED"
        ∧ a.pin_hash ≠ hash_pin hasher pin
        ∧ evs = [Event.audit ("Failed login attempt for account: " ++ acc_number
                    ++ " (attempt " ++ toString (a.failed_attempts + 1) ++ ")"),
                  Event.report (invalid_pin_report
                    (MAX_FAILED_ATTEMPTS - (a.failed_attempts + 1))),
                  Event.persist r.2.accounts]
        ∧ r.2.accounts.find acc_number
            = some { a with failed_attempts := a.failed_attempts + 1 }
        ∧ 1 ≤ MAX_FAILED_ATTEMPTS - (a.failed_attempts + 1) := by
    intro k hk
    obtain ⟨a, hfind, hopen, hpin, hroom⟩ :=
      retry_report_branch hasher elapsed acc_number pin w ⟨k, hk⟩
    obtain ⟨hlo, hhi⟩ := hrange a hfind
    obtain ⟨h1, h2, h3⟩ :=
      retry_events_in_range hasher elapsed acc_number pin w a hfind hopen hpin hroom hlo hhi
    exact ⟨a, hfind, hopen, hpin, h1, h2, h3⟩
  refine ⟨⟨?_, ?_⟩, ?_, ?_⟩
  · rintro ⟨k, hk⟩
    obtain ⟨a, hfind, hopen, hpin, _, hafter, _⟩ := hforward k hk
    have hsame := inactivity_step_of_not_locked elapsed a hopen
    refine ⟨inactivity_step elapsed a, check_inactivity_find elapsed acc_number w a hfind,
      hopen, by rw [hsame]; exact hpin, ?_⟩
    show (r.2.accounts.find acc_number).map Account.status ≠ some "LOCKED"
    rw [hafter]
    rw [hsame] at hopen
    intro hst
    exact hopen (Option.some.inj hst)
  · rintro ⟨a1, hcheck, hopen, hpin, hstatus⟩
    cases hfind : w.accounts.find acc_number with
    | none =>
      have hv : check_inactivity elapsed acc_number w = w := by
        unfold check_inactivity
        simp only [hfind]
      rw [hv, hfind] at hcheck
      cases hcheck
    | some a =>
      have ha1 : a1 = inactivity_step elapsed a := by
        have := check_inactivity_find elapsed acc_number w a hfind
        rw [hcheck] at this
        exact Option.some.inj this
      subst ha1
      have hsame := inactivity_step_of_not_locked elapsed a hopen
      rw [hsame] at hpin
      have hroom : ¬ wrap_int (a.failed_attempts + 1) ≥ MAX_FAILED_ATTEMPTS := by
        intro hfull
        apply hstatus
        show ((validate_account hasher elapsed acc_number pin w).2.accounts.find
          acc_number).map Account.status = some "LOCKED"
        rw [validate_account_find_same hasher elapsed acc_number pin w a hfind]
        rw [hsame] at hopen
        simp only [account_after, hsame, pin_step, hopen, hpin, if_false]
        rw [if_pos hfull]
        rfl
      obtain ⟨h1, _⟩ := retry_events hasher elapsed acc_number pin w a hfind hopen hpin hroom
      refine ⟨wrap_int (MAX_FAILED_ATTEMPTS - wrap_int (a.failed_attempts + 1)), ?_⟩
      show Event.report _ ∈ emitted w.trace (validate_account hasher elapsed acc_number pin w).2
      rw [h1]
      simp
  · intro k hk
    obtain ⟨a, hfind, _, _, hevs, hafter, hone⟩ := hforward k hk
    refine ⟨a, a.failed_attempts + 1, hfind, ?_, rfl, hone, ?_, hevs⟩
    · show (r.2.accounts.find acc_number).map Account.failed_attempts = _
      rw [hafter]
      rfl
    · rw [hevs] at hk
      simp only [List.mem_cons, List.mem_singleton, List.not_mem_nil, or_false,
        Event.report.injEq, reduceCtorEq, false_or] at hk
      exact hk
  · intro a hfind hzero hreported hnext
    obtain ⟨k, hk⟩ := hreported
    obtain ⟨b, hfindb, hopen, _, hevs, hafter, _⟩ := hforward k hk
    rw [hfind] at hfindb
    cases hfindb
    rw [hzero] at hevs hafter
    constructor
    · rw [hevs]
      simp [MAX_FAILED_ATTEMPTS]
    · have hopen2 : (inactivity_step elapsed
          { a with failed_attempts := (0 : Int) + 1 }).status ≠ "LOCKED" := by
        have hsame := inactivity_step_of_not_locked elapsed a hopen
        rw [hsame] at hopen
        unfold inactivity_step
        split
        · rename_i hc
          exfalso
          apply hopen
          have hsame2 := hsame
          unfold inactivity_step at hsame2
          rw [if_pos hc] at hsame2
          rw [← hsame2]
        · exact hopen
      have hroom2 : ¬ wrap_int ((0 : Int) + 1 + 1) ≥ MAX_FAILED_ATTEMPTS := by decide
      obtain ⟨h1, _⟩ := retry_events hasher elapsed acc_number next_pin r.2
        { a with failed_attempts := (0 : Int) + 1 } hafter hopen2 hnext hroom2
      rw [h1]
      have hk1 : wrap_int (MAX_FAILED_ATTEMPTS - wrap_int ((0 : Int) + 1 + 1)) = 1 := by decide
      show Event.report (invalid_pin_report 1) ∈
        [Event.audit _, Event.report (invalid_pin_report
          (wrap_int (MAX_FAILED_ATTEMPTS - wrap_int ((0 : Int) + 1 + 1)))), Event.persist _]
      rw [hk1]
      simp

/-- C13, amended, on "A001" with no recorded failure: the wrong PIN "9999"
is answered with "2 attempts remaining", the following wrong PIN "0000" with
"1 attempts remaining". -/
theorem remaining_attempts_report_witness :
    (∀ a : Account, (demo_world "ACTIVE" 0).accounts.find "A001" = some a →
      -2147483645 ≤ a.failed_attempts ∧ a.failed_attempts < INT_MAX)
    ∧ invalid_pin_report 2 = "Invalid PIN. 2 attempts remaining.\n"
    ∧ invalid_pin_report 1 = "Invalid PIN. 1 attempts remaining.\n"
    ∧ Event.report (invalid_pin_report 2)
        ∈ emitted (demo_world "ACTIVE" 0).trace
            (validate_account demo_hasher demo_clock "A001" "9999" (demo_world "ACTIVE" 0)).2
    ∧ Event.report (invalid_pin_report 1)
        ∈ emitted
            (validate_account demo_hasher demo_clock "A001" "9999"
              (demo_world "ACTIVE" 0)).2.trace
            (validate_account demo_hasher demo_clock "A001" "0000"
              (validate_account demo_hasher demo_clock "A001" "9999"
                (demo_world "ACTIVE" 0)).2).2 :=
  ⟨fun a h => by
      have h2 : some (demo_account "ACTIVE" 0) = some a := h
      cases h2
      decide,
    by decide, by decide,
    (remaining_attempts_report demo_hasher demo_clock "A001" "9999" "0000"
      (demo_world "ACTIVE" 0)
      (fun a h => by
        have h2 : some (demo_account "ACTIVE" 0) = some a := h
        cases h2
        decide)).2.2 (demo_account "ACTIVE" 0) (by decide) (by decide) ⟨2, by decide⟩
      (by decide)⟩

end Bank
